import Mathlib

/-!
# Spyster game engine: verification of the specification claims

A shallow embedding of the Spyster game session engine
(`custom_components/spyster/game/{state,roles,scoring,player}.py` and
`custom_components/spyster/const.py`).  Python dicts are modelled as
association lists with insertion-order semantics, machine integers as `Int`
or `Nat`, `None`-able values as `Option`, and the wall clock as an explicit
`now : Int` argument.  Randomness (`secrets.choice`, shuffles) is passed in
as explicit oracle functions.  Each claim about the engine is stated and
settled as a theorem over these definitions.
-/

namespace Spyster

/-- Python `dict[str, α]` as an insertion-ordered association list. -/
abbrev StrMap (α : Type) := List (String × α)

/-- `d.get(k)` / `d[k]` for a dict with unique keys (first binding wins). -/
def dictLookup {α : Type} : StrMap α → String → Option α
  | [], _ => none
  | p :: rest, k => if p.1 = k then some p.2 else dictLookup rest k

/-- `k in d`. -/
def dictContains {α : Type} (d : StrMap α) (k : String) : Bool :=
  (dictLookup d k).isSome

/-- `d[k] = v`: update in place if the key is present, else append. -/
def dictInsert {α : Type} : StrMap α → String → α → StrMap α
  | [], k, v => [(k, v)]
  | p :: rest, k, v => if p.1 = k then (k, v) :: rest else p :: dictInsert rest k v

/-- `del d[k]` / `d.pop(k, None)`. -/
def dictRemove {α : Type} (d : StrMap α) (k : String) : StrMap α :=
  d.filter (fun p => p.1 ≠ k)

/-- `GamePhase` enumeration from `game/state.py`. -/
inductive GamePhase where
  | LOBBY
  | ROLES
  | QUESTIONING
  | VOTE
  | REVEAL
  | SCORING
  | END
  | PAUSED
deriving DecidableEq, Repr

/-- `GamePhase.value` (the string payload of each enum member). -/
def GamePhase.value : GamePhase → String
  | .LOBBY => "LOBBY"
  | .ROLES => "ROLES"
  | .QUESTIONING => "QUESTIONING"
  | .VOTE => "VOTE"
  | .REVEAL => "REVEAL"
  | .SCORING => "SCORING"
  | .END => "END"
  | .PAUSED => "PAUSED"

/-- A role entry of a location (`{"name": ..., "hint": ...}` in the content
packs); `hint` is read with `role.get("hint", "")`, so we store it directly. -/
structure Role where
  name : String
  hint : String
deriving DecidableEq, Repr

/-- A location of a content pack (`{"id", "name", "roles"}`). -/
structure Location where
  id : String
  name : String
  roles : List Role
deriving DecidableEq, Repr

/-- A loaded location pack (`{"locations": [...]}`). -/
structure LocationPack where
  locations : List Location
deriving DecidableEq, Repr

/-- `PlayerSession` from `game/player.py` (the `ws` connection handle and the
grace-timer task reference carry no game data and are omitted). -/
structure PlayerSession where
  name : String
  session_token : String
  connected : Bool := true
  is_host : Bool := false
  role : Option String := none
  is_spy : Bool := false
  score : Int := 0
  joined_at : Int := 0
  last_heartbeat : Int := 0
  disconnected_at : Option Int := none
deriving DecidableEq, Repr

/-- A vote record as stored in `GameState.votes`
(`{"target", "confidence", "timestamp"}`, plus `"abstained"` for timeout
abstentions; `record_vote` never writes the key, and `.get("abstained",
False)` makes that equal to `abstained := false`). -/
structure Vote where
  target : Option String
  confidence : Int
  timestamp : Int
  abstained : Bool := false
deriving DecidableEq, Repr

/-- `GameState.spy_guess` (`{"location_id", "correct", "timestamp"}`). -/
structure SpyGuess where
  location_id : String
  correct : Bool
  timestamp : Int
deriving DecidableEq, Repr

/-- `GameConfig` from `game/config.py` with its defaults. -/
structure GameConfig where
  round_duration_minutes : Int := 7
  num_rounds : Int := 5
  location_pack : String := "classic"
deriving DecidableEq, Repr

/-- One itemised line of a per-round score breakdown, one constructor per
dict shape produced in `game/scoring.py`. -/
inductive BreakdownItem where
  | vote (target : Option String) (confidence : Int) (points : Int) (correct : Bool)
  | abstain (points : Int)
  | double_agent (points : Int)
  | location_guess (correct : Bool) (points : Int)
  | spy_guessed (points : Int)
deriving DecidableEq, Repr

/-- A per-player entry of `GameState.round_scores`
(`{"points", "outcome", "breakdown"}`). -/
structure ScoreEntry where
  points : Int
  outcome : String
  breakdown : List BreakdownItem
deriving DecidableEq, Repr

/-- The dict computed by `GameState.calculate_vote_results`. -/
structure VoteResults where
  vote_counts : StrMap Nat
  convicted : Option String
  max_votes : Nat
  total_votes : Nat
  abstentions : Nat
deriving DecidableEq, Repr

/-- An entry of `GameState.round_history` (see `_save_round_history`). -/
structure RoundRecord where
  round : Int
  spy : Option String
  location : Option String
  convicted : Option String
  spy_caught : Bool
  scores : StrMap ScoreEntry
deriving DecidableEq, Repr

/-- An `asyncio.Task` held in `GameState._timers`: all the engine ever asks
of it is whether it is `done()`. -/
structure TimerEntry where
  done : Bool
deriving DecidableEq, Repr

/-- `GameState` from `game/state.py`; field defaults mirror `__init__`.
`sessions` aliases the same `PlayerSession` objects as `players` in Python;
here both maps are updated together wherever the source mutates a shared
session object.  `vote_results := none` models the empty dict `{}` (the
source only ever tests it for truthiness or replaces it wholesale), and
`round_history := none` models the attribute not existing yet (it is created
lazily by `_save_round_history` and probed with `hasattr`). -/
structure GameState where
  phase : GamePhase := .LOBBY
  timers : StrMap TimerEntry := []
  timer_start_times : StrMap Int := []
  timer_durations : StrMap Int := []
  players : StrMap PlayerSession := []
  sessions : StrMap PlayerSession := []
  previous_phase : Option GamePhase := none
  session_id : Option String := none
  created_at : Option Int := none
  host_id : Option String := none
  round_duration : Int := 420
  round_count : Int := 5
  vote_caller : Option String := none
  vote_duration : Int := 60
  votes : StrMap Vote := []
  spy_guess : Option SpyGuess := none
  spy_action_taken : Bool := false
  convicted_player : Option String := none
  vote_results : Option VoteResults := none
  round_scores : StrMap ScoreEntry := []
  spy_caught : Bool := false
  config : GameConfig := {}
  current_round : Int := 0
  player_count : Int := 0
  game_started : Bool := false
  spy_name : Option String := none
  current_location : Option Location := none
  player_roles : StrMap Role := []
  current_questioner_id : Option String := none
  current_answerer_id : Option String := none
  turn_order : List String := []
  round_history : Option (List RoundRecord) := none
deriving DecidableEq, Repr

/-! ## Constants from `const.py` -/

def ERR_INVALID_PHASE : String := "INVALID_PHASE"
def ERR_PLAYER_NOT_FOUND : String := "PLAYER_NOT_FOUND"
def ERR_ALREADY_VOTED : String := "ALREADY_VOTED"
def ERR_INVALID_TARGET : String := "INVALID_TARGET"
def ERR_INVALID_TOKEN : String := "INVALID_TOKEN"
def ERR_SESSION_EXPIRED : String := "SESSION_EXPIRED"
def ERR_GAME_ALREADY_STARTED : String := "GAME_ALREADY_STARTED"
def ERR_NOT_ENOUGH_PLAYERS : String := "NOT_ENOUGH_PLAYERS"
def ERR_GAME_FULL : String := "GAME_FULL"
def ERR_ROLE_ASSIGNMENT_FAILED : String := "ROLE_ASSIGNMENT_FAILED"
def ERR_GAME_ENDED : String := "GAME_ENDED"

def MIN_PLAYERS : Nat := 4
def MAX_PLAYERS : Nat := 10
def RECONNECT_WINDOW_SECONDS : Int := 300
def VOTE_TIMER_DURATION : Int := 60

/-- `VALID_TRANSITIONS` from `const.py` (string keys and values there; the
`GameState.can_transition` lookup is by `phase.value`, which is this table
read back as enum members). -/
def VALID_TRANSITIONS : GamePhase → List GamePhase
  | .LOBBY => [.ROLES, .PAUSED]
  | .ROLES => [.QUESTIONING, .PAUSED]
  | .QUESTIONING => [.VOTE, .PAUSED]
  | .VOTE => [.REVEAL, .PAUSED]
  | .REVEAL => [.SCORING, .PAUSED]
  | .SCORING => [.ROLES, .END, .PAUSED]
  | .END => [.LOBBY, .PAUSED]
  | .PAUSED => [.LOBBY, .ROLES, .QUESTIONING, .VOTE, .REVEAL, .SCORING]

/-! ## Phase state machine -/

/-- `GameState.can_transition`. -/
def can_transition (s : GameState) (to_phase : GamePhase) : Bool × Option String :=
  if to_phase ∈ VALID_TRANSITIONS s.phase then (true, none)
  else (false, some ERR_INVALID_PHASE)

/-- `GameState.transition_to`.  Python mutates `self`; here the updated
state is returned alongside the `(success, error_code)` pair. -/
def transition_to (s : GameState) (new_phase : GamePhase) :
    GameState × Bool × Option String :=
  if (can_transition s new_phase).1 = false then
    (s, false, (can_transition s new_phase).2)
  else
    let s1 :=
      if new_phase = .PAUSED then
        { s with previous_phase := some s.phase }
      else if s.phase = .PAUSED ∧ s.previous_phase.isSome then
        { s with previous_phase := none }
      else s
    ({ s1 with phase := new_phase }, true, none)

/-! ## C2: invalid transitions are rejected without mutation -/

/-- C2: for every phase pair `(A, B)` with `B` not listed as a successor of
`A` in `VALID_TRANSITIONS`, `transition_to` fails with the
invalid-phase-transition error code (`ERR_INVALID_PHASE`, logged as
"Invalid phase transition blocked") and returns the session unchanged: the
phase is still `A` and no field is mutated. -/
theorem C2_invalid_transition_rejected (s : GameState) (B : GamePhase)
    (h : B ∉ VALID_TRANSITIONS s.phase) :
    transition_to s B = (s, false, some ERR_INVALID_PHASE) := by
  simp [transition_to, can_transition, h]

/-- Witness for C2 at a concrete input: `REVEAL` is not a successor of
`LOBBY`, and the request is rejected with the fresh state unchanged. -/
theorem C2_witness :
    GamePhase.REVEAL ∉ VALID_TRANSITIONS (GameState.phase {}) ∧
    transition_to {} .REVEAL = ({}, false, some ERR_INVALID_PHASE) :=
  ⟨by decide, C2_invalid_transition_rejected {} .REVEAL (by decide)⟩

/-! ## C3: pause / resume bookkeeping -/

/-- C3 (amended): transitioning from any phase `P ≠ PAUSED` to `PAUSED`
records `P` as the remembered previous phase.  A transition out of `PAUSED`
(while a previous phase is remembered) to any target `B ∉ {END, PAUSED}`
succeeds, sets the phase to `B` — the engine does not force `B` to equal the
remembered phase — and clears the memory; a transition out of `PAUSED` to
`END` is rejected and leaves the state (including the memory) untouched. -/
theorem C3_pause_resume (s : GameState) :
    (s.phase ≠ .PAUSED →
      transition_to s .PAUSED =
        ({ s with previous_phase := some s.phase, phase := .PAUSED }, true, none)) ∧
    (s.phase = .PAUSED → s.previous_phase.isSome →
      (∀ B : GamePhase, B ≠ .PAUSED → B ≠ .END →
        transition_to s B =
          ({ s with previous_phase := none, phase := B }, true, none)) ∧
      transition_to s .END = (s, false, some ERR_INVALID_PHASE)) := by
  constructor
  · intro hne
    have hmem : GamePhase.PAUSED ∈ VALID_TRANSITIONS s.phase := by
      cases h : s.phase <;> simp_all [VALID_TRANSITIONS]
    simp [transition_to, can_transition, hmem]
  · intro hp hprev
    constructor
    · intro B hBp hBe
      have hmem : B ∈ VALID_TRANSITIONS GamePhase.PAUSED := by
        cases B <;> simp_all [VALID_TRANSITIONS]
      simp [transition_to, can_transition, hmem, hp, hBp, hprev]
    · have hmem : GamePhase.END ∉ VALID_TRANSITIONS s.phase := by
        rw [hp]; decide
      simp [transition_to, can_transition, hmem]

/-- A concrete paused session remembering `VOTE`. -/
def pausedVoteState : GameState :=
  { phase := .PAUSED, previous_phase := some .VOTE }

/-- Counterexample to C3 as stated: from `PAUSED` with remembered phase
`VOTE`, the engine accepts a "resume" to `REVEAL`, landing on a phase other
than the remembered one (the memory is cleared all the same), so a resume
out of `PAUSED` does not always return to the remembered phase. -/
theorem C3_counterexample :
    pausedVoteState.phase = .PAUSED ∧
    pausedVoteState.previous_phase = some .VOTE ∧
    (transition_to pausedVoteState .REVEAL).2.1 = true ∧
    (transition_to pausedVoteState .REVEAL).1.phase = .REVEAL ∧
    (transition_to pausedVoteState .REVEAL).1.phase ≠ .VOTE ∧
    (transition_to pausedVoteState .REVEAL).1.previous_phase = none := by
  refine ⟨rfl, rfl, ?_, ?_, ?_, ?_⟩ <;> decide

/-- Witness for C3 (amended) at concrete inputs: pausing from `VOTE`
records `VOTE`; resuming the paused session to `QUESTIONING` succeeds and
clears the memory; resuming to `END` is rejected unchanged. -/
theorem C3_witness :
    transition_to { phase := .VOTE } .PAUSED =
      ({ phase := .PAUSED, previous_phase := some .VOTE }, true, none) ∧
    transition_to pausedVoteState .QUESTIONING =
      ({ phase := .QUESTIONING, previous_phase := none }, true, none) ∧
    transition_to pausedVoteState .END =
      (pausedVoteState, false, some ERR_INVALID_PHASE) := by
  refine ⟨?_, ?_, ?_⟩
  · exact (C3_pause_resume { phase := .VOTE }).1 (by decide)
  · exact ((C3_pause_resume pausedVoteState).2 rfl (by decide)).1 .QUESTIONING
      (by decide) (by decide)
  · exact ((C3_pause_resume pausedVoteState).2 rfl (by decide)).2
/-! ## Lexicographic string order

Python compares strings by code points.  Mathlib's `String` order does not
reduce in the kernel, so the comparison is modelled directly on the
character lists. -/

/-- Lexicographic comparison of character lists (Python string `<=`). -/
def charListLE : List Char → List Char → Bool
  | [], _ => true
  | _ :: _, [] => false
  | a :: as, b :: bs =>
      if a < b then true else if b < a then false else charListLE as bs

/-- Python `a <= b` on strings. -/
def strLE (a b : String) : Bool := charListLE a.data b.data

theorem charListLE_refl (x : List Char) : charListLE x x = true := by
  induction x with
  | nil => rfl
  | cons a as ih => simp [charListLE, ih]

theorem charListLE_total (x y : List Char) :
    charListLE x y = true ∨ charListLE y x = true := by
  induction x generalizing y with
  | nil => left; rfl
  | cons a as ih =>
    cases y with
    | nil => right; rfl
    | cons b bs =>
      rcases lt_trichotomy a b with h | h | h
      · left; simp [charListLE, h]
      · subst h
        rcases ih bs with h2 | h2
        · left; simp [charListLE, h2]
        · right; simp [charListLE, h2]
      · right; simp [charListLE, h]

theorem charListLE_trans (x y z : List Char) (h1 : charListLE x y = true)
    (h2 : charListLE y z = true) : charListLE x z = true := by
  induction x generalizing y z with
  | nil => rfl
  | cons a as ih =>
    cases y with
    | nil => simp [charListLE] at h1
    | cons b bs =>
      cases z with
      | nil => simp [charListLE] at h2
      | cons c cs =>
        by_cases hab : a < b
        · by_cases hbc : b < c
          · simp [charListLE, lt_trans hab hbc]
          · by_cases hcb : c < b
            · simp [charListLE, hbc, hcb] at h2
            · have hbceq : b = c := le_antisymm (le_of_not_lt hcb) (le_of_not_lt hbc)
              subst hbceq
              simp [charListLE, hab]
        · by_cases hba : b < a
          · simp [charListLE, hab, hba] at h1
          · have haeq : a = b := le_antisymm (le_of_not_lt hba) (le_of_not_lt hab)
            subst haeq
            simp only [charListLE, if_neg (lt_irrefl a)] at h1
            by_cases hac : a < c
            · simp [charListLE, hac]
            · by_cases hca : c < a
              · simp [charListLE, hac, hca] at h2
              · simp only [charListLE, if_neg hac, if_neg hca] at h2 ⊢
                exact ih bs cs h1 h2

theorem strLE_refl (a : String) : strLE a a = true := charListLE_refl a.data

theorem strLE_total (a b : String) : strLE a b = true ∨ strLE b a = true :=
  charListLE_total a.data b.data

theorem strLE_trans (a b c : String) (h1 : strLE a b = true)
    (h2 : strLE b c = true) : strLE a c = true :=
  charListLE_trans a.data b.data c.data h1 h2

/-! ## Vote tally (`GameState.calculate_vote_results`) -/

/-- Python truthiness of the stored vote target (`if target:` skips both
`None` and the empty string). -/
def truthyTarget : Option String → Bool
  | some t => t ≠ ""
  | none => false

/-- `vote_counts[target] = vote_counts.get(target, 0) + 1`. -/
def bumpCount (counts : StrMap Nat) (t : String) : StrMap Nat :=
  dictInsert counts t ((dictLookup counts t).getD 0 + 1)

/-- The counting loop of `calculate_vote_results`, iterating the votes dict
in insertion order. -/
def countTargetsAux : StrMap Vote → StrMap Nat → StrMap Nat
  | [], counts => counts
  | kv :: rest, counts =>
      countTargetsAux rest
        (match kv.2.target with
          | some t => if t = "" then counts else bumpCount counts t
          | none => counts)

def countTargets (votes : StrMap Vote) : StrMap Nat :=
  countTargetsAux votes []

/-- Insertion step of key-sorting (`sorted(vote_counts.items())`; the dict
has unique keys, so comparing keys alone reproduces the tuple order). -/
def insertByKey {α : Type} (p : String × α) : List (String × α) → List (String × α)
  | [] => [p]
  | q :: rest => if strLE p.1 q.1 then p :: q :: rest else q :: insertByKey p rest

def sortByKey {α : Type} : List (String × α) → List (String × α)
  | [] => []
  | p :: rest => insertByKey p (sortByKey rest)

/-- The selection loop of `calculate_vote_results`: keep the first entry
whose count strictly exceeds the running maximum. -/
def pickConvicted : List (String × Nat) → Option String × Nat → Option String × Nat
  | [], acc => acc
  | (t, c) :: rest, acc =>
      pickConvicted rest (if c > acc.2 then (some t, c) else acc)

/-- `GameState.calculate_vote_results`: counts votes per truthy target,
determines the convicted player, stores the results on the state and
returns them. -/
def calculate_vote_results (s : GameState) : GameState × VoteResults :=
  let vote_counts := countTargets s.votes
  let r := pickConvicted (sortByKey vote_counts) (none, 0)
  let results : VoteResults :=
    { vote_counts := vote_counts
      convicted := r.1
      max_votes := r.2
      total_votes := (s.votes.filter (fun p => truthyTarget p.2.target)).length
      abstentions := (s.votes.filter (fun p => p.2.abstained)).length }
  ({ s with convicted_player := r.1, vote_results := some results }, results)

/-- Specification-side tally: the number of votes naming target `t`. -/
def specCount (votes : StrMap Vote) (t : String) : Nat :=
  (votes.filter (fun p => p.2.target == some t)).length

/-! ### Dictionary lemmas -/

theorem dictLookup_dictInsert {α : Type} (d : StrMap α) (k k2 : String) (v : α) :
    dictLookup (dictInsert d k v) k2 =
      if k = k2 then some v else dictLookup d k2 := by
  induction d with
  | nil => by_cases h : k = k2 <;> simp [dictInsert, dictLookup, h]
  | cons p rest ih =>
    simp only [dictInsert]
    by_cases hpk : p.1 = k
    · rw [if_pos hpk]
      by_cases hk2 : k = k2
      · simp [dictLookup, hk2]
      · have hp2 : ¬p.1 = k2 := by rw [hpk]; exact hk2
        simp [dictLookup, hk2, hp2]
    · rw [if_neg hpk]
      by_cases hp2 : p.1 = k2
      · have hk2 : ¬k = k2 := fun h => hpk (hp2.trans h.symm ▸ rfl)
        simp [dictLookup, hp2, hk2]
      · simp [dictLookup, hp2, ih]

theorem mem_dictInsert {α : Type} (d : StrMap α) (k : String) (v : α)
    (p : String × α) (h : p ∈ dictInsert d k v) : p ∈ d ∨ p = (k, v) := by
  induction d with
  | nil => simp [dictInsert] at h; simp [h]
  | cons q rest ih =>
    by_cases hq : q.1 = k
    · simp [dictInsert, hq] at h
      rcases h with h | h
      · right; simp [h]
      · left; simp [h]
    · simp [dictInsert, hq] at h
      rcases h with h | h
      · left; simp [h]
      · rcases ih h with h2 | h2
        · left; simp [h2]
        · right; exact h2

theorem dictLookup_mem {α : Type} (d : StrMap α) (k : String) (v : α)
    (h : dictLookup d k = some v) : (k, v) ∈ d := by
  induction d with
  | nil => simp [dictLookup] at h
  | cons p rest ih =>
    by_cases hp : p.1 = k
    · simp only [dictLookup, if_pos hp, Option.some.injEq] at h
      have hpv : p = (k, v) := by
        obtain ⟨a, b⟩ := p
        simp only at hp h
        simp [hp, h]
      rw [← hpv]
      exact List.mem_cons_self _ _
    · simp only [dictLookup, if_neg hp] at h
      exact List.mem_cons_of_mem _ (ih h)

theorem keys_dictInsert {α : Type} (d : StrMap α) (k : String) (v : α)
    (x : String) (h : x ∈ (dictInsert d k v).map Prod.fst) :
    x ∈ d.map Prod.fst ∨ x = k := by
  simp only [List.mem_map] at h
  obtain ⟨p, hp, hx⟩ := h
  rcases mem_dictInsert d k v p hp with h2 | h2
  · left; exact List.mem_map.mpr ⟨p, h2, hx⟩
  · right; rw [← hx, h2]

theorem nodupKeys_dictInsert {α : Type} (d : StrMap α) (k : String) (v : α)
    (h : (d.map Prod.fst).Nodup) : ((dictInsert d k v).map Prod.fst).Nodup := by
  induction d with
  | nil => simp [dictInsert]
  | cons p rest ih =>
    simp only [List.map_cons, List.nodup_cons] at h
    simp only [dictInsert]
    by_cases hp : p.1 = k
    · rw [if_pos hp]
      simp only [List.map_cons, List.nodup_cons]
      exact ⟨hp ▸ h.1, h.2⟩
    · rw [if_neg hp]
      simp only [List.map_cons, List.nodup_cons]
      refine ⟨fun hx => ?_, ih h.2⟩
      rcases keys_dictInsert rest k v p.1 hx with h2 | h2
      · exact h.1 h2
      · exact hp h2

theorem mem_dictLookup_of_nodup {α : Type} (d : StrMap α)
    (hnd : (d.map Prod.fst).Nodup) (p : String × α) (h : p ∈ d) :
    dictLookup d p.1 = some p.2 := by
  induction d with
  | nil => simp at h
  | cons q rest ih =>
    simp only [List.map_cons, List.nodup_cons] at hnd
    rcases List.mem_cons.mp h with h2 | h2
    · simp [dictLookup, h2]
    · have hne : q.1 ≠ p.1 := by
        intro he
        exact hnd.1 (he ▸ List.mem_map.mpr ⟨p, h2, rfl⟩)
      simp [dictLookup, hne, ih hnd.2 h2]

/-! ### Counting lemmas -/

theorem specCount_cons (kv : String × Vote) (rest : StrMap Vote) (t : String) :
    specCount (kv :: rest) t =
      (if kv.2.target = some t then 1 else 0) + specCount rest t := by
  by_cases h : kv.2.target = some t <;>
    simp [specCount, List.filter_cons, h, Nat.add_comm]

theorem bumpCount_lookup (counts : StrMap Nat) (u t : String) :
    (dictLookup (bumpCount counts u) t).getD 0 =
      if u = t then (dictLookup counts t).getD 0 + 1
      else (dictLookup counts t).getD 0 := by
  by_cases h : u = t <;> simp [bumpCount, dictLookup_dictInsert, h]

theorem countTargetsAux_lookup (votes : StrMap Vote) (counts : StrMap Nat)
    (t : String) (ht : t ≠ "") :
    (dictLookup (countTargetsAux votes counts) t).getD 0 =
      (dictLookup counts t).getD 0 + specCount votes t := by
  induction votes generalizing counts with
  | nil => simp [countTargetsAux, specCount]
  | cons kv rest ih =>
    rw [specCount_cons]
    cases htar : kv.2.target with
    | none =>
      simp only [countTargetsAux, htar]
      rw [ih counts]
      simp
    | some u =>
      have hstep : countTargetsAux (kv :: rest) counts =
          countTargetsAux rest (if u = "" then counts else bumpCount counts u) := by
        simp [countTargetsAux, htar]
      by_cases hu : u = ""
      · rw [hstep, if_pos hu, ih counts]
        have hne2 : ¬(some u = some t) := by
          simp only [Option.some.injEq]
          intro h
          exact ht (h ▸ hu)
        rw [if_neg hne2]
        omega
      · rw [hstep, if_neg hu, ih (bumpCount counts u), bumpCount_lookup]
        by_cases hut : u = t
        · rw [if_pos hut, if_pos (by rw [hut])]
          omega
        · rw [if_neg hut, if_neg (by simpa using hut)]
          omega

theorem countTargetsAux_mem (votes : StrMap Vote) (counts : StrMap Nat)
    (p : String × Nat) (h : p ∈ countTargetsAux votes counts) :
    p ∈ counts ∨ ∃ q ∈ votes, q.2.target = some p.1 := by
  induction votes generalizing counts with
  | nil => simp [countTargetsAux] at h; simp [h]
  | cons kv rest ih =>
    cases htar : kv.2.target with
    | none =>
      simp only [countTargetsAux, htar] at h
      rcases ih _ h with h2 | ⟨q, hq, hq2⟩
      · left; exact h2
      · right; exact ⟨q, List.mem_cons_of_mem _ hq, hq2⟩
    | some u =>
      by_cases hu : u = ""
      · simp only [countTargetsAux, htar, hu, if_pos rfl] at h
        rcases ih _ h with h2 | ⟨q, hq, hq2⟩
        · left; exact h2
        · right; exact ⟨q, List.mem_cons_of_mem _ hq, hq2⟩
      · simp only [countTargetsAux, htar, if_neg hu] at h
        rcases ih _ h with h2 | ⟨q, hq, hq2⟩
        · rcases mem_dictInsert _ _ _ _ h2 with h3 | h3
          · left; exact h3
          · right
            refine ⟨kv, List.mem_cons_self _ _, ?_⟩
            rw [htar, h3]
        · right; exact ⟨q, List.mem_cons_of_mem _ hq, hq2⟩

theorem countTargetsAux_pos (votes : StrMap Vote) (counts : StrMap Nat)
    (hpos : ∀ p ∈ counts, 1 ≤ p.2) (p : String × Nat)
    (h : p ∈ countTargetsAux votes counts) : 1 ≤ p.2 := by
  induction votes generalizing counts with
  | nil => exact hpos p (by simpa [countTargetsAux] using h)
  | cons kv rest ih =>
    cases htar : kv.2.target with
    | none =>
      simp only [countTargetsAux, htar] at h
      exact ih _ hpos h
    | some u =>
      by_cases hu : u = ""
      · simp only [countTargetsAux, htar, hu, if_pos rfl] at h
        exact ih _ hpos h
      · simp only [countTargetsAux, htar, if_neg hu] at h
        refine ih _ (fun q hq => ?_) h
        rcases mem_dictInsert _ _ _ _ hq with h2 | h2
        · exact hpos q h2
        · simp [h2]

theorem countTargetsAux_nodupKeys (votes : StrMap Vote) (counts : StrMap Nat)
    (hnd : (counts.map Prod.fst).Nodup) :
    ((countTargetsAux votes counts).map Prod.fst).Nodup := by
  induction votes generalizing counts with
  | nil => simpa [countTargetsAux] using hnd
  | cons kv rest ih =>
    cases htar : kv.2.target with
    | none => simp only [countTargetsAux, htar]; exact ih _ hnd
    | some u =>
      by_cases hu : u = ""
      · simp only [countTargetsAux, htar, hu, if_pos rfl]; exact ih _ hnd
      · simp only [countTargetsAux, htar, if_neg hu]
        exact ih _ (nodupKeys_dictInsert _ _ _ hnd)

theorem countTargetsAux_of_all_none (votes : StrMap Vote) (counts : StrMap Nat)
    (h : ∀ p ∈ votes, p.2.target = none) :
    countTargetsAux votes counts = counts := by
  induction votes generalizing counts with
  | nil => rfl
  | cons kv rest ih =>
    have hkv := h kv (List.mem_cons_self _ _)
    simp only [countTargetsAux, hkv]
    exact ih _ (fun p hp => h p (List.mem_cons_of_mem _ hp))

/-! ### Sorting lemmas -/

/-- Key order on dict entries. -/
def keyLE {α : Type} (p q : String × α) : Prop := strLE p.1 q.1 = true

theorem mem_insertByKey {α : Type} (p x : String × α) (l : List (String × α)) :
    x ∈ insertByKey p l ↔ x = p ∨ x ∈ l := by
  induction l with
  | nil => simp [insertByKey]
  | cons q rest ih =>
    by_cases h : strLE p.1 q.1
    · simp [insertByKey, h]
    · simp [insertByKey, h, ih]
      tauto

theorem sorted_insertByKey {α : Type} (p : String × α) (l : List (String × α))
    (h : l.Pairwise keyLE) : (insertByKey p l).Pairwise keyLE := by
  induction l with
  | nil => simp [insertByKey, List.pairwise_cons]
  | cons q rest ih =>
    rcases List.pairwise_cons.mp h with ⟨hq, hrest⟩
    by_cases hle : strLE p.1 q.1
    · simp only [insertByKey, if_pos hle]
      refine List.pairwise_cons.mpr ⟨?_, h⟩
      intro x hx
      rcases List.mem_cons.mp hx with h2 | h2
      · rw [h2]; exact hle
      · exact strLE_trans _ _ _ hle (hq x h2)
    · simp only [insertByKey, if_neg hle]
      refine List.pairwise_cons.mpr ⟨?_, ih hrest⟩
      intro x hx
      rcases (mem_insertByKey p x rest).mp hx with h2 | h2
      · rw [h2]
        rcases strLE_total p.1 q.1 with h3 | h3
        · exact absurd h3 hle
        · exact h3
      · exact hq x h2

theorem mem_sortByKey {α : Type} (x : String × α) (l : List (String × α)) :
    x ∈ sortByKey l ↔ x ∈ l := by
  induction l with
  | nil => simp [sortByKey]
  | cons p rest ih => simp [sortByKey, mem_insertByKey, ih]

theorem sorted_sortByKey {α : Type} (l : List (String × α)) :
    (sortByKey l).Pairwise keyLE := by
  induction l with
  | nil => simp [sortByKey]
  | cons p rest ih => exact sorted_insertByKey p _ ih

/-! ### Selection loop lemmas -/

theorem pickConvicted_ge (l : List (String × Nat)) (acc : Option String × Nat) :
    acc.2 ≤ (pickConvicted l acc).2 := by
  induction l generalizing acc with
  | nil => simp [pickConvicted]
  | cons p rest ih =>
    obtain ⟨t, c⟩ := p
    by_cases h : c > acc.2
    · simp only [pickConvicted, if_pos h]
      exact le_trans (le_of_lt h) (ih (some t, c))
    · simp only [pickConvicted, if_neg h]
      exact ih acc

theorem pickConvicted_bound (l : List (String × Nat)) (acc : Option String × Nat)
    (p : String × Nat) (h : p ∈ l) : p.2 ≤ (pickConvicted l acc).2 := by
  induction l generalizing acc with
  | nil => simp at h
  | cons q rest ih =>
    obtain ⟨t, c⟩ := q
    rcases List.mem_cons.mp h with h2 | h2
    · by_cases hc : c > acc.2
      · simp only [pickConvicted, if_pos hc]
        rw [h2]
        exact pickConvicted_ge rest (some t, c)
      · simp only [pickConvicted, if_neg hc]
        rw [h2]
        exact le_trans (le_of_not_lt hc) (pickConvicted_ge rest acc)
    · by_cases hc : c > acc.2
      · simp only [pickConvicted, if_pos hc]
        exact ih (some t, c) h2
      · simp only [pickConvicted, if_neg hc]
        exact ih acc h2

theorem pickConvicted_mem (l : List (String × Nat)) (acc : Option String × Nat) :
    pickConvicted l acc = acc ∨ ∃ p ∈ l, pickConvicted l acc = (some p.1, p.2) := by
  induction l generalizing acc with
  | nil => left; rfl
  | cons q rest ih =>
    obtain ⟨t, c⟩ := q
    by_cases hc : c > acc.2
    · simp only [pickConvicted, if_pos hc]
      rcases ih (some t, c) with h | ⟨p, hp, hp2⟩
      · right; exact ⟨(t, c), List.mem_cons_self _ _, h⟩
      · right; exact ⟨p, List.mem_cons_of_mem _ hp, hp2⟩
    · simp only [pickConvicted, if_neg hc]
      rcases ih acc with h | ⟨p, hp, hp2⟩
      · left; exact h
      · right; exact ⟨p, List.mem_cons_of_mem _ hp, hp2⟩

theorem pickConvicted_strict (l : List (String × Nat)) (acc : Option String × Nat) :
    pickConvicted l acc = acc ∨ acc.2 < (pickConvicted l acc).2 := by
  induction l generalizing acc with
  | nil => left; rfl
  | cons q rest ih =>
    obtain ⟨t, c⟩ := q
    by_cases hc : c > acc.2
    · simp only [pickConvicted, if_pos hc]
      rcases ih (some t, c) with h | h
      · right; rw [h]; exact hc
      · right; exact lt_trans hc h
    · simp only [pickConvicted, if_neg hc]
      exact ih acc

theorem pickConvicted_tie :
    ∀ (l : List (String × Nat)) (acc : Option String × Nat) (t : String)
      (k : Nat) (c : String),
      l.Pairwise keyLE → (t, k) ∈ l → k = (pickConvicted l acc).2 →
      acc.2 < k → (pickConvicted l acc).1 = some c → strLE c t = true := by
  intro l
  induction l with
  | nil =>
    intro acc t k c _ hmem
    simp at hmem
  | cons q rest ih =>
    intro acc t k c hsor hmem hk hacc hr
    obtain ⟨u, c0⟩ := q
    rcases List.pairwise_cons.mp hsor with ⟨hu, hrest⟩
    rcases List.mem_cons.mp hmem with h2 | h2
    · -- the entry for t is the head itself
      have ht : t = u := congrArg Prod.fst h2
      have hk0 : k = c0 := congrArg Prod.snd h2
      have hc : c0 > acc.2 := hk0 ▸ hacc
      simp only [pickConvicted, if_pos hc] at hk hr
      rcases pickConvicted_strict rest (some u, c0) with h3 | h3
      · rw [h3] at hr
        have hcu : c = u := by simpa using hr.symm
        rw [hcu, ht]
        exact strLE_refl u
      · exfalso
        simp only at h3
        omega
    · -- the entry for t is in the tail
      by_cases hc : c0 > acc.2
      · simp only [pickConvicted, if_pos hc] at hk hr
        rcases lt_trichotomy k c0 with h4 | h4 | h4
        · exfalso
          have h5 := pickConvicted_ge rest (some u, c0)
          simp only at h5
          omega
        · -- tie with the head: the fold keeps the head, which sorts first
          rcases pickConvicted_strict rest (some u, c0) with h5 | h5
          · rw [h5] at hr
            have hcu : c = u := by simpa using hr.symm
            rw [hcu]
            exact hu (t, k) h2
          · exfalso
            simp only at h5
            omega
        · exact ih (some u, c0) t k c hrest h2 hk (by simpa using h4) hr
      · simp only [pickConvicted, if_neg hc] at hk hr
        exact ih acc t k c hrest h2 hk hacc hr

/-! ### C4: tally, conviction, tie-break -/

/-- C4: the tally of `calculate_vote_results` counts, for every target, the
votes naming that target (abstentions, which carry no target, are ignored);
the convicted player carries the maximum count, any target tying that count
is lexicographically at or after the convicted name (so the convicted player
is the lexicographically earliest among maximal targets), and if no vote
names a target the result is no conviction.  The hypothesis excludes the
empty string as a target name (an empty name can never be a registered
player; the source skips falsy targets). -/
theorem C4_vote_tally (s : GameState)
    (hne : ∀ p ∈ s.votes, p.2.target ≠ some "") :
    (∀ t, (dictLookup (calculate_vote_results s).2.vote_counts t).getD 0 =
       specCount s.votes t) ∧
    ((∀ p ∈ s.votes, p.2.target = none) →
       (calculate_vote_results s).2.convicted = none) ∧
    (∀ c, (calculate_vote_results s).2.convicted = some c →
       0 < specCount s.votes c ∧
       (∀ t, specCount s.votes t ≤ specCount s.votes c) ∧
       (∀ t, specCount s.votes t = specCount s.votes c → strLE c t = true)) := by
  have hcounts : ∀ t, t ≠ "" →
      (dictLookup (countTargets s.votes) t).getD 0 = specCount s.votes t := by
    intro t ht
    simpa [countTargets, dictLookup] using countTargetsAux_lookup s.votes [] t ht
  have hempty : (dictLookup (countTargets s.votes) "").getD 0 = 0 := by
    cases h : dictLookup (countTargets s.votes) "" with
    | none => rfl
    | some m =>
      exfalso
      have hm := dictLookup_mem _ _ _ h
      rcases countTargetsAux_mem s.votes [] _ hm with h2 | ⟨q, hq, hq2⟩
      · simp at h2
      · exact hne q hq hq2
  have hspecEmpty : specCount s.votes "" = 0 := by
    rw [specCount, List.length_eq_zero, List.filter_eq_nil_iff]
    intro p hp
    simpa using hne p hp
  have hlook : ∀ t, (dictLookup (countTargets s.votes) t).getD 0 =
      specCount s.votes t := by
    intro t
    by_cases ht : t = ""
    · rw [ht, hempty, hspecEmpty]
    · exact hcounts t ht
  have hnd : ((countTargets s.votes).map Prod.fst).Nodup :=
    countTargetsAux_nodupKeys s.votes [] (by simp)
  refine ⟨?_, ?_, ?_⟩
  · intro t
    simpa [calculate_vote_results] using hlook t
  · intro hall
    have : countTargets s.votes = [] := by
      simpa [countTargets] using countTargetsAux_of_all_none s.votes [] hall
    simp [calculate_vote_results, this, sortByKey, pickConvicted]
  · intro c hc
    simp only [calculate_vote_results] at hc
    set r := pickConvicted (sortByKey (countTargets s.votes)) (none, 0) with hrdef
    rcases pickConvicted_mem (sortByKey (countTargets s.votes)) (none, 0) with
      h | ⟨p, hp, hp2⟩
    · rw [← hrdef] at h
      rw [h] at hc
      simp at hc
    · rw [← hrdef] at hp2
      have hc2 : c = p.1 := by
        rw [hp2] at hc
        simpa using hc.symm
      have hpcounts : p ∈ countTargets s.votes :=
        (mem_sortByKey p _).mp hp
      have hlookp : dictLookup (countTargets s.votes) p.1 = some p.2 :=
        mem_dictLookup_of_nodup _ hnd p hpcounts
      have hspec : specCount s.votes c = p.2 := by
        have h5 := hlook c
        rw [hc2] at h5 ⊢
        rw [hlookp] at h5
        simpa using h5.symm
      have hpos : 1 ≤ p.2 :=
        countTargetsAux_pos s.votes [] (by simp) p hpcounts
      have hr2 : r.2 = p.2 := by rw [hp2]
      refine ⟨by omega, ?_, ?_⟩
      · intro t
        rcases Nat.eq_zero_or_pos (specCount s.votes t) with h0 | h0
        · omega
        · have hlt : dictLookup (countTargets s.votes) t =
              some (specCount s.votes t) := by
            have h6 := hlook t
            cases hlu : dictLookup (countTargets s.votes) t with
            | none => rw [hlu] at h6; simp at h6; omega
            | some m => rw [hlu] at h6; simp at h6; rw [h6]
          have hmem2 : (t, specCount s.votes t) ∈ countTargets s.votes :=
            dictLookup_mem _ _ _ hlt
          have h7 := pickConvicted_bound (sortByKey (countTargets s.votes)) (none, 0)
            (t, specCount s.votes t) ((mem_sortByKey _ _).mpr hmem2)
          rw [← hrdef, hr2] at h7
          simpa [hspec] using h7
      · intro t ht
        have h0 : 0 < specCount s.votes t := by omega
        have hlt : dictLookup (countTargets s.votes) t =
            some (specCount s.votes t) := by
          have h6 := hlook t
          cases hlu : dictLookup (countTargets s.votes) t with
          | none => rw [hlu] at h6; simp at h6; omega
          | some m => rw [hlu] at h6; simp at h6; rw [h6]
        have hmem2 : (t, specCount s.votes t) ∈ countTargets s.votes :=
          dictLookup_mem _ _ _ hlt
        refine pickConvicted_tie (sortByKey (countTargets s.votes)) (none, 0)
          t (specCount s.votes t) c (sorted_sortByKey _)
          ((mem_sortByKey _ _).mpr hmem2) ?_ ?_ ?_
        · rw [← hrdef, hr2, ← hspec, ht]
        · simpa using h0
        · rw [← hrdef, hp2, hc2]

/-- Four concrete votes from the spec round-score example: Alice→Dana,
Bob→Dana, Carol abstains, Dana→Alice. -/
def tallyExampleState : GameState :=
  { votes := [("Alice", ⟨some "Dana", 2, 0, false⟩),
              ("Bob", ⟨some "Dana", 1, 1, false⟩),
              ("Carol", ⟨none, 0, 2, true⟩),
              ("Dana", ⟨some "Alice", 3, 3, false⟩)] }

/-- Witness for C4 at a concrete input: Dana is convicted with the maximum
count, and the maximality bound applies to Alice. -/
theorem C4_witness :
    (calculate_vote_results tallyExampleState).2.convicted = some "Dana" ∧
    0 < specCount tallyExampleState.votes "Dana" ∧
    specCount tallyExampleState.votes "Alice" ≤
      specCount tallyExampleState.votes "Dana" := by
  have h := C4_vote_tally tallyExampleState (by decide)
  have hconv : (calculate_vote_results tallyExampleState).2.convicted =
      some "Dana" := by decide
  have h2 := h.2.2 "Dana" hconv
  exact ⟨hconv, h2.1, h2.2.1 "Alice"⟩

/-! ## Scoring (`game/scoring.py`) -/

/-- `POINTS_CORRECT_VOTE = {1: 2, 2: 4, 3: 6}` (looked up only after
clamping, so the fallback arm is unreachable; Python would raise KeyError). -/
def POINTS_CORRECT_VOTE : Int → Int
  | 1 => 2
  | 2 => 4
  | 3 => 6
  | _ => 0

/-- `POINTS_INCORRECT_VOTE = {1: -1, 2: -2, 3: -3}`. -/
def POINTS_INCORRECT_VOTE : Int → Int
  | 1 => -1
  | 2 => -2
  | 3 => -3
  | _ => 0

def POINTS_DOUBLE_AGENT_BONUS : Int := 10
def POINTS_SPY_GUESS_CORRECT : Int := 10
def POINTS_SPY_GUESS_WRONG : Int := -5

/-- `min(max(confidence, 1), 3)`. -/
def clampConfidence (c : Int) : Int := min (max c 1) 3

/-- `calculate_vote_score`.  `actual_spy` is `game_state._spy_name`, which
may be `None`; Python's `==` between a string and `None` is `False`, which
the `Option` equality reproduces. -/
def calculate_vote_score (voted_for : Option String) (actual_spy : Option String)
    (confidence : Int) : Int × String :=
  match voted_for with
  | none => (0, "abstained")
  | some t =>
    let c := clampConfidence confidence
    if actual_spy = some t then (POINTS_CORRECT_VOTE c, "correct")
    else (POINTS_INCORRECT_VOTE c, "incorrect")

/-- `calculate_double_agent_bonus`. -/
def calculate_double_agent_bonus (spy_vote_target : Option String)
    (convicted_player : Option String) (spy_confidence : Int)
    (spy_name : Option String) : Int :=
  if spy_vote_target = none then 0
  else if spy_confidence ≠ 3 then 0
  else if spy_vote_target = spy_name then 0
  else if spy_vote_target ≠ convicted_player then 0
  else POINTS_DOUBLE_AGENT_BONUS

/-- The per-voter body of the scoring loop in `calculate_round_scores`
(conviction present, no spy guess). -/
def scoreVoterEntry (spy_name convicted : Option String) (voter : String)
    (v : Vote) : ScoreEntry :=
  if v.abstained then
    { points := 0, outcome := "abstained", breakdown := [.abstain 0] }
  else
    let pr := calculate_vote_score v.target spy_name v.confidence
    let breakdown : List BreakdownItem :=
      [.vote v.target v.confidence pr.1 (pr.2 == "correct")]
    if spy_name = some voter then
      let bonus := calculate_double_agent_bonus v.target convicted v.confidence spy_name
      if bonus > 0 then
        { points := pr.1 + bonus, outcome := pr.2,
          breakdown := breakdown ++ [.double_agent bonus] }
      else { points := pr.1, outcome := pr.2, breakdown := breakdown }
    else { points := pr.1, outcome := pr.2, breakdown := breakdown }

/-- The scoring loop over `game_state.votes.items()`. -/
def scoreVotesAux (spy_name convicted : Option String) :
    StrMap Vote → StrMap ScoreEntry → StrMap ScoreEntry
  | [], scores => scores
  | kv :: rest, scores =>
      scoreVotesAux spy_name convicted rest
        (dictInsert scores kv.1 (scoreVoterEntry spy_name convicted kv.1 kv.2))

/-- The "add players who didn't vote" loop of `calculate_round_scores`. -/
def addNonVoters : StrMap PlayerSession → StrMap ScoreEntry → StrMap ScoreEntry
  | [], scores => scores
  | p :: rest, scores =>
      addNonVoters rest
        (if dictContains scores p.1 then scores
         else dictInsert scores p.1
           { points := 0, outcome := "no_vote", breakdown := [] })

/-- The per-player body of `calculate_spy_guess_scores`. -/
def spyGuessEntry (s : GameState) (player_name : String) : ScoreEntry :=
  let correct := match s.spy_guess with | some g => g.correct | none => false
  if s.spy_name = some player_name then
    if correct then
      { points := POINTS_SPY_GUESS_CORRECT, outcome := "spy_guess_correct",
        breakdown := [.location_guess true POINTS_SPY_GUESS_CORRECT] }
    else
      { points := POINTS_SPY_GUESS_WRONG, outcome := "spy_guess_wrong",
        breakdown := [.location_guess false POINTS_SPY_GUESS_WRONG] }
  else
    match dictLookup s.votes player_name with
    | some v =>
        if v.abstained then
          { points := 0, outcome := "abstained", breakdown := [] }
        else
          { points := 0, outcome := "spy_guessed", breakdown := [.spy_guessed 0] }
    | none => { points := 0, outcome := "spy_guessed", breakdown := [] }

/-- `calculate_spy_guess_scores`. -/
def calculate_spy_guess_scores (s : GameState) : StrMap ScoreEntry :=
  s.players.map (fun p => (p.1, spyGuessEntry s p.1))

/-- `calculate_round_scores`. -/
def calculate_round_scores (s : GameState) : StrMap ScoreEntry :=
  if s.spy_guess.isSome then calculate_spy_guess_scores s
  else
    match s.convicted_player with
    | none => s.players.map (fun p =>
        (p.1, { points := 0, outcome := "no_conviction", breakdown := [] }))
    | some _ =>
        addNonVoters s.players
          (scoreVotesAux s.spy_name s.convicted_player s.votes [])

/-! ### Lookup lemmas for the scoring folds -/

theorem dictLookup_mapEntries {α β : Type} (l : StrMap α) (f : String → β)
    (k : String) :
    dictLookup (l.map (fun p => (p.1, f p.1))) k =
      if dictContains l k then some (f k) else none := by
  induction l with
  | nil => simp [dictLookup, dictContains]
  | cons p rest ih =>
    by_cases hp : p.1 = k
    · simp [dictLookup, dictContains, hp]
    · simp [dictLookup, dictContains, hp, ih]

theorem dictLookup_mapConst {α β : Type} (l : StrMap α) (e : β) (k : String) :
    dictLookup (l.map (fun p => (p.1, e))) k =
      if dictContains l k then some e else none := by
  induction l with
  | nil => simp [dictLookup, dictContains]
  | cons p rest ih =>
    by_cases hp : p.1 = k
    · simp [dictLookup, dictContains, hp]
    · simp [dictLookup, dictContains, hp, ih]

theorem scoreVotesAux_lookup_notmem (spy conv : Option String)
    (votes : StrMap Vote) (scores : StrMap ScoreEntry) (k : String)
    (h : ∀ p ∈ votes, p.1 ≠ k) :
    dictLookup (scoreVotesAux spy conv votes scores) k = dictLookup scores k := by
  induction votes generalizing scores with
  | nil => rfl
  | cons kv rest ih =>
    simp only [scoreVotesAux]
    rw [ih _ (fun p hp => h p (List.mem_cons_of_mem _ hp))]
    rw [dictLookup_dictInsert]
    exact if_neg (h kv (List.mem_cons_self _ _))

theorem scoreVotesAux_lookup (spy conv : Option String) (votes : StrMap Vote)
    (scores : StrMap ScoreEntry) (k : String) (v : Vote)
    (hnd : (votes.map Prod.fst).Nodup) (hv : dictLookup votes k = some v) :
    dictLookup (scoreVotesAux spy conv votes scores) k =
      some (scoreVoterEntry spy conv k v) := by
  induction votes generalizing scores with
  | nil => simp [dictLookup] at hv
  | cons kv rest ih =>
    simp only [List.map_cons, List.nodup_cons] at hnd
    by_cases hk : kv.1 = k
    · simp only [dictLookup, if_pos hk, Option.some.injEq] at hv
      simp only [scoreVotesAux]
      have hnot : ∀ p ∈ rest, p.1 ≠ k := by
        intro p hp he
        exact hnd.1 (hk ▸ he ▸ List.mem_map.mpr ⟨p, hp, rfl⟩)
      rw [scoreVotesAux_lookup_notmem _ _ _ _ _ hnot, dictLookup_dictInsert,
        if_pos hk, hk, hv]
    · simp only [dictLookup, if_neg hk] at hv
      simp only [scoreVotesAux]
      exact ih _ hnd.2 hv

theorem addNonVoters_lookup_some (players : StrMap PlayerSession)
    (scores : StrMap ScoreEntry) (k : String) (e : ScoreEntry)
    (h : dictLookup scores k = some e) :
    dictLookup (addNonVoters players scores) k = some e := by
  induction players generalizing scores with
  | nil => exact h
  | cons p rest ih =>
    by_cases hc : dictContains scores p.1
    · simp only [addNonVoters, if_pos hc]
      exact ih _ h
    · simp only [addNonVoters, if_neg hc]
      refine ih _ ?_
      rw [dictLookup_dictInsert]
      by_cases hpk : p.1 = k
      · exfalso
        rw [hpk] at hc
        simp [dictContains, h] at hc
      · rw [if_neg hpk]
        exact h
/-! ### C6: spy-guess scoring branch -/

/-- C6: whenever the spy made a location guess, round scoring follows the
guess-specific branch — the spy scores +10 for a correct guess and −5 for an
incorrect one, and every other player scores 0 regardless of any vote they
cast. -/
theorem C6_spy_guess_scoring (s : GameState) (g : SpyGuess)
    (hg : s.spy_guess = some g) (p : String)
    (hp : dictContains s.players p = true) :
    ∃ e, dictLookup (calculate_round_scores s) p = some e ∧
      e.points = (if s.spy_name = some p then (if g.correct then 10 else -5)
                  else 0) := by
  have hguess : s.spy_guess.isSome = true := by rw [hg]; rfl
  rw [calculate_round_scores, if_pos hguess]
  rw [calculate_spy_guess_scores, dictLookup_mapEntries, if_pos hp]
  refine ⟨spyGuessEntry s p, rfl, ?_⟩
  by_cases hspy : s.spy_name = some p
  · cases hgc : g.correct <;>
      simp [spyGuessEntry, hg, hspy, hgc, POINTS_SPY_GUESS_CORRECT,
        POINTS_SPY_GUESS_WRONG]
  · cases hv : dictLookup s.votes p with
    | none => simp [spyGuessEntry, hg, hspy, hv]
    | some v =>
      cases hva : v.abstained <;> simp [spyGuessEntry, hg, hspy, hv, hva]

/-- A concrete spy-guess round: Dana is the spy and guessed correctly;
Alice had voted for Dana anyway. -/
def spyGuessExampleState : GameState :=
  { players := [("Alice", { name := "Alice", session_token := "ta" }),
                ("Bob", { name := "Bob", session_token := "tb" }),
                ("Carol", { name := "Carol", session_token := "tc" }),
                ("Dana", { name := "Dana", session_token := "td" })],
    votes := [("Alice", ⟨some "Dana", 3, 0, false⟩)],
    spy_name := some "Dana",
    spy_guess := some ⟨"beach", true, 5⟩ }

/-- Witness for C6 at a concrete input: the spy scores +10, and a player who
voted (for the spy, with full confidence) still scores 0. -/
theorem C6_witness :
    (∃ e, dictLookup (calculate_round_scores spyGuessExampleState) "Dana" =
        some e ∧ e.points = 10) ∧
    (∃ e, dictLookup (calculate_round_scores spyGuessExampleState) "Alice" =
        some e ∧ e.points = 0) := by
  constructor
  · obtain ⟨e, he, hp⟩ := C6_spy_guess_scoring spyGuessExampleState
      ⟨"beach", true, 5⟩ rfl "Dana" (by decide)
    refine ⟨e, he, ?_⟩
    rw [hp]
    decide
  · obtain ⟨e, he, hp⟩ := C6_spy_guess_scoring spyGuessExampleState
      ⟨"beach", true, 5⟩ rfl "Alice" (by decide)
    refine ⟨e, he, ?_⟩
    rw [hp]
    decide

/-! ### C5: the Double-Agent bonus -/

/-- C5: with no spy guess and a conviction in place, the spy's round score
is their vote score plus the Double-Agent bonus, and the bonus is present
(as a `double_agent 10` breakdown item, making the total `-3 + 10 = 7`) if
and only if the spy cast a non-abstaining vote with confidence 3 for a
target other than themselves and that exact target is the convicted player.
With no conviction the spy scores 0, and in the spy-guess branch no
double-agent item ever appears and the spy's points are the guess payout.
The `Nodup` hypothesis states that the votes dict has unique keys, as every
Python dict does. -/
theorem C5_double_agent (s : GameState) (sp : String)
    (hspy : s.spy_name = some sp)
    (hnd : (s.votes.map Prod.fst).Nodup) :
    (∀ c v, s.spy_guess = none → s.convicted_player = some c →
      dictLookup s.votes sp = some v → v.abstained = false →
      ∃ e, dictLookup (calculate_round_scores s) sp = some e ∧
        ((v.target = some c ∧ v.confidence = 3 ∧ c ≠ sp) →
          e.points = (calculate_vote_score v.target s.spy_name v.confidence).1 + 10 ∧
          e.points = 7 ∧ BreakdownItem.double_agent 10 ∈ e.breakdown) ∧
        (¬(v.target = some c ∧ v.confidence = 3 ∧ c ≠ sp) →
          e.points = (calculate_vote_score v.target s.spy_name v.confidence).1 ∧
          ∀ n : Int, BreakdownItem.double_agent n ∉ e.breakdown)) ∧
    (s.spy_guess = none → s.convicted_player = none →
      dictContains s.players sp = true →
      dictLookup (calculate_round_scores s) sp =
        some { points := 0, outcome := "no_conviction", breakdown := [] }) ∧
    (∀ g, s.spy_guess = some g →
      ∀ e, dictLookup (calculate_round_scores s) sp = some e →
        (∀ n : Int, BreakdownItem.double_agent n ∉ e.breakdown) ∧
        e.points = (if g.correct then 10 else -5)) := by
  refine ⟨?_, ?_, ?_⟩
  · intro c v hg hconv hv hnab
    have hguess : s.spy_guess.isSome = false := by rw [hg]; rfl
    rw [calculate_round_scores, if_neg (by simp [hguess]), hconv]
    have hlook := scoreVotesAux_lookup s.spy_name (some c) s.votes []
      sp v hnd hv
    refine ⟨scoreVoterEntry s.spy_name (some c) sp v,
      addNonVoters_lookup_some _ _ _ _ hlook, ?_, ?_⟩
    · rintro ⟨htar, hconf, hcsp⟩
      have hbonus : calculate_double_agent_bonus v.target (some c)
          v.confidence (some sp) = 10 := by
        rw [htar, hconf]
        have h1 : ¬(some c = some sp) := by simpa using hcsp
        simp [calculate_double_agent_bonus, h1, POINTS_DOUBLE_AGENT_BONUS]
      have hscore : calculate_vote_score v.target (some sp) v.confidence =
          (-3, "incorrect") := by
        rw [htar, hconf]
        have h1 : ¬(some sp = some c) := by simpa using fun h => hcsp h.symm
        simp [calculate_vote_score, clampConfidence, h1, POINTS_INCORRECT_VOTE]
      refine ⟨?_, ?_, ?_⟩
      · simp [scoreVoterEntry, hnab, hspy, hbonus, hscore]
      · simp [scoreVoterEntry, hnab, hspy, hbonus, hscore]
        try norm_num
      · simp [scoreVoterEntry, hnab, hspy, hbonus, hscore]
    · intro hnotb
      have hbonus : calculate_double_agent_bonus v.target (some c)
          v.confidence (some sp) = 0 := by
        rw [calculate_double_agent_bonus]
        by_cases h1 : v.target = none
        · rw [if_pos h1]
        · rw [if_neg h1]
          by_cases h2 : v.confidence = 3
          · rw [if_neg (by simp [h2])]
            by_cases h3 : v.target = some sp
            · rw [if_pos h3]
            · rw [if_neg h3]
              by_cases h4 : v.target = some c
              · exfalso
                apply hnotb
                refine ⟨h4, h2, ?_⟩
                intro he
                exact h3 (he ▸ h4)
              · rw [if_pos h4]
          · rw [if_pos (by simp [h2])]
      constructor
      · simp [scoreVoterEntry, hnab, hspy, hbonus]
      · intro n
        simp [scoreVoterEntry, hnab, hspy, hbonus]
  · intro hg hconv hp
    have hguess : s.spy_guess.isSome = false := by rw [hg]; rfl
    simp only [calculate_round_scores, hguess, Bool.false_eq_true, if_false,
      hconv]
    rw [dictLookup_mapConst, if_pos hp]
  · intro g hg e he
    have hguess : s.spy_guess.isSome = true := by rw [hg]; rfl
    rw [calculate_round_scores, if_pos hguess, calculate_spy_guess_scores,
      dictLookup_mapEntries] at he
    by_cases hp : dictContains s.players sp
    · rw [if_pos hp, Option.some.injEq] at he
      subst he
      cases hgc : g.correct <;>
        simp [spyGuessEntry, hg, hspy, hgc, POINTS_SPY_GUESS_CORRECT,
          POINTS_SPY_GUESS_WRONG]
    · rw [if_neg hp] at he
      exact absurd he (by simp)

/-- The double-agent example from the spec: the spy (Dana) votes for Bob
with confidence 3, and Bob is convicted. -/
def doubleAgentExampleState : GameState :=
  { players := [("Alice", { name := "Alice", session_token := "ta" }),
                ("Bob", { name := "Bob", session_token := "tb" }),
                ("Carol", { name := "Carol", session_token := "tc" }),
                ("Dana", { name := "Dana", session_token := "td" })],
    votes := [("Alice", ⟨some "Bob", 1, 0, false⟩),
              ("Dana", ⟨some "Bob", 3, 1, false⟩)],
    spy_name := some "Dana",
    convicted_player := some "Bob" }

/-- Witness for C5 at the spec's example: the spy's round score is
`-3 + 10 = 7` and the double-agent item is in the breakdown. -/
theorem C5_witness :
    ∃ e, dictLookup (calculate_round_scores doubleAgentExampleState) "Dana" =
        some e ∧ e.points = 7 ∧ BreakdownItem.double_agent 10 ∈ e.breakdown := by
  obtain ⟨e, he, hb, _⟩ :=
    ((C5_double_agent doubleAgentExampleState "Dana" rfl (by decide)).1
      "Bob" ⟨some "Bob", 3, 1, false⟩ rfl rfl (by decide) rfl)
  obtain ⟨h1, h2, h3⟩ := hb ⟨rfl, rfl, by decide⟩
  exact ⟨e, he, h2, h3⟩

/-! ## Timers and vote recording (`game/state.py`) -/

/-- `GameState.cancel_timer`: drops the named timer (and its tracking
entries) only when it exists and is not yet done. -/
def cancel_timer (s : GameState) (name : String) : GameState :=
  match dictLookup s.timers name with
  | some t =>
      if t.done = false then
        { s with timers := dictRemove s.timers name,
                 timer_start_times := dictRemove s.timer_start_times name,
                 timer_durations := dictRemove s.timer_durations name }
      else s
  | none => s

/-- `name in self._timers and not self._timers[name].done()`. -/
def timerActive (s : GameState) (name : String) : Bool :=
  match dictLookup s.timers name with
  | some t => !t.done
  | none => false

/-- `GameState.start_timer`: cancels any timer of the same name, then
records start time, duration, and a fresh (not done) task. -/
def start_timer (now : Int) (s : GameState) (name : String)
    (duration : Int) : GameState :=
  let s1 := cancel_timer s name
  { s1 with timer_start_times := dictInsert s1.timer_start_times name now,
            timer_durations := dictInsert s1.timer_durations name duration,
            timers := dictInsert s1.timers name { done := false } }

/-- `GameState._all_votes_submitted`: every connected player (by the
session's `name` attribute) has an entry in `votes`. -/
def all_votes_submitted (s : GameState) : Bool :=
  s.players.all (fun p => !p.2.connected || dictContains s.votes p.2.name)

/-- `GameState.record_vote`.  Mutation is modelled by returning the updated
state next to the `(success, error_code)` pair; `now` stands for
`time.time()`. -/
def record_vote (now : Int) (s : GameState) (player_name target : String)
    (confidence : Int) : GameState × Bool × Option String :=
  if s.phase ≠ .VOTE then (s, false, some ERR_INVALID_PHASE)
  else
    match dictLookup s.players player_name with
    | none => (s, false, some ERR_PLAYER_NOT_FOUND)
    | some voter =>
      if voter.connected = false then (s, false, some ERR_PLAYER_NOT_FOUND)
      else if dictContains s.votes player_name then
        (s, false, some ERR_ALREADY_VOTED)
      else if (dictLookup s.players target).isNone then
        (s, false, some ERR_INVALID_TARGET)
      else if target = player_name then (s, false, some ERR_INVALID_TARGET)
      else
        let conf :=
          if confidence = 1 ∨ confidence = 2 ∨ confidence = 3 then confidence
          else 1
        let s1 := { s with
          votes := dictInsert s.votes player_name ⟨some target, conf, now, false⟩ }
        let s2 := if all_votes_submitted s1 then cancel_timer s1 "vote" else s1
        (s2, true, none)

/-! ### Helper lemmas for timers and vote insertion -/

theorem dictLookup_dictRemove_self {α : Type} (d : StrMap α) (k : String) :
    dictLookup (dictRemove d k) k = none := by
  induction d with
  | nil => rfl
  | cons p rest ih =>
    by_cases hp : p.1 = k
    · simpa [dictRemove, List.filter, hp] using ih
    · simpa [dictRemove, List.filter, hp, dictLookup] using ih

theorem dictInsert_append_of_notmem {α : Type} (d : StrMap α) (k : String)
    (v : α) (h : dictLookup d k = none) : dictInsert d k v = d ++ [(k, v)] := by
  induction d with
  | nil => rfl
  | cons p rest ih =>
    have hp : ¬p.1 = k := by
      intro he
      simp [dictLookup, he] at h
    simp only [dictLookup, if_neg hp] at h
    simp [dictInsert, hp, ih h]

/-- `cancel_timer` touches only the three timer maps. -/
theorem cancel_timer_shape (s : GameState) (n : String) :
    ∃ t1 t2 t3, cancel_timer s n =
      { s with timers := t1, timer_start_times := t2, timer_durations := t3 } := by
  cases h : dictLookup s.timers n with
  | none =>
    refine ⟨s.timers, s.timer_start_times, s.timer_durations, ?_⟩
    simp only [cancel_timer, h]
  | some t =>
    by_cases htd : t.done = false
    · refine ⟨dictRemove s.timers n, dictRemove s.timer_start_times n,
        dictRemove s.timer_durations n, ?_⟩
      simp only [cancel_timer, h, if_pos htd]
    · refine ⟨s.timers, s.timer_start_times, s.timer_durations, ?_⟩
      simp only [cancel_timer, h, if_neg htd]

/-- After `cancel_timer s n`, no live timer named `n` remains. -/
theorem timerActive_cancel (s : GameState) (n : String) :
    timerActive (cancel_timer s n) n = false := by
  cases h : dictLookup s.timers n with
  | none => simp [cancel_timer, timerActive, h]
  | some t =>
    by_cases htd : t.done = false
    · simp only [cancel_timer, h, if_pos htd]
      simp [timerActive, dictLookup_dictRemove_self]
    · have hdone : t.done = true := by
        cases h2 : t.done
        · exact absurd h2 htd
        · rfl
      simp only [cancel_timer, h, if_neg htd]
      simp [timerActive, h, hdone]

/-! ### C7: vote recording guards -/

/-- C7: `record_vote` rejects — returning the stated error and leaving the
whole session (in particular the votes map) unchanged — whenever the phase
is not `VOTE`, the voter is unknown or disconnected, the voter has already
voted, or the target is unknown or equals the voter; an out-of-range
confidence does not cause rejection but is coerced to 1 in the recorded
vote. -/
theorem C7_record_vote_guards (now : Int) (s : GameState)
    (player_name target : String) (confidence : Int) :
    (s.phase ≠ .VOTE →
      record_vote now s player_name target confidence =
        (s, false, some ERR_INVALID_PHASE)) ∧
    (s.phase = .VOTE → dictLookup s.players player_name = none →
      record_vote now s player_name target confidence =
        (s, false, some ERR_PLAYER_NOT_FOUND)) ∧
    (∀ voter : PlayerSession, s.phase = .VOTE →
      dictLookup s.players player_name = some voter →
      voter.connected = false →
      record_vote now s player_name target confidence =
        (s, false, some ERR_PLAYER_NOT_FOUND)) ∧
    (∀ voter : PlayerSession, s.phase = .VOTE →
      dictLookup s.players player_name = some voter →
      voter.connected = true → dictContains s.votes player_name = true →
      record_vote now s player_name target confidence =
        (s, false, some ERR_ALREADY_VOTED)) ∧
    (∀ voter : PlayerSession, s.phase = .VOTE →
      dictLookup s.players player_name = some voter →
      voter.connected = true → dictContains s.votes player_name = false →
      dictLookup s.players target = none →
      record_vote now s player_name target confidence =
        (s, false, some ERR_INVALID_TARGET)) ∧
    (∀ voter : PlayerSession, s.phase = .VOTE →
      dictLookup s.players player_name = some voter →
      voter.connected = true → dictContains s.votes player_name = false →
      (dictLookup s.players target).isSome = true → target = player_name →
      record_vote now s player_name target confidence =
        (s, false, some ERR_INVALID_TARGET)) ∧
    (∀ voter : PlayerSession, s.phase = .VOTE →
      dictLookup s.players player_name = some voter →
      voter.connected = true → dictContains s.votes player_name = false →
      (dictLookup s.players target).isSome = true → target ≠ player_name →
      confidence ≠ 1 → confidence ≠ 2 → confidence ≠ 3 →
      (record_vote now s player_name target confidence).2 = (true, none) ∧
      dictLookup (record_vote now s player_name target confidence).1.votes
          player_name = some ⟨some target, 1, now, false⟩) := by
  refine ⟨?_, ?_, ?_, ?_, ?_, ?_, ?_⟩
  · intro h
    simp only [record_vote, if_pos h]
  · intro hp hl
    simp [record_vote, hp, hl]
  · intro voter hp hl hc
    simp [record_vote, hp, hl, hc]
  · intro voter hp hl hc hv
    simp [record_vote, hp, hl, hc, hv]
  · intro voter hp hl hc hv ht
    simp [record_vote, hp, hl, hc, hv, ht]
  · intro voter hp hl hc hv ht he
    have hisnone : (dictLookup s.players target).isNone = false := by
      cases h : dictLookup s.players target with
      | none => rw [h] at ht; simp at ht
      | some _ => rfl
    simp [record_vote, hp, hl, hc, hv, hisnone, he]
  · intro voter hp hl hc hv ht he h1 h2 h3
    have hisnone : (dictLookup s.players target).isNone = false := by
      cases h : dictLookup s.players target with
      | none => rw [h] at ht; simp at ht
      | some _ => rfl
    have hconf : (if confidence = 1 ∨ confidence = 2 ∨ confidence = 3
        then confidence else 1) = 1 := by
      rw [if_neg]
      push_neg
      exact ⟨h1, h2, h3⟩
    have hr : record_vote now s player_name target confidence =
        (if all_votes_submitted { s with
              votes := dictInsert s.votes player_name ⟨some target, 1, now, false⟩ }
         then cancel_timer { s with
              votes := dictInsert s.votes player_name ⟨some target, 1, now, false⟩ }
              "vote"
         else { s with
              votes := dictInsert s.votes player_name ⟨some target, 1, now, false⟩ },
         true, none) := by
      simp [record_vote, hp, hl, hc, hv, hisnone, he, hconf]
    have hlook : dictLookup
        (dictInsert s.votes player_name ⟨some target, 1, now, false⟩)
        player_name = some ⟨some target, 1, now, false⟩ := by
      rw [dictLookup_dictInsert, if_pos rfl]
    constructor
    · rw [hr]
    · rw [hr]
      split
      · obtain ⟨t1, t2, t3, hshape⟩ := cancel_timer_shape
          { s with
            votes := dictInsert s.votes player_name ⟨some target, 1, now, false⟩ }
          "vote"
        rw [hshape]
        exact hlook
      · exact hlook

/-- A concrete four-player voting state. -/
def voteExampleState : GameState :=
  { phase := .VOTE,
    players := [("Alice", { name := "Alice", session_token := "ta" }),
                ("Bob", { name := "Bob", session_token := "tb" }),
                ("Carol", { name := "Carol", session_token := "tc" }),
                ("Dana", { name := "Dana", session_token := "td",
                           connected := false })],
    votes := [("Bob", ⟨some "Alice", 2, 0, false⟩)],
    timers := [("vote", { done := false })],
    timer_start_times := [("vote", 0)],
    timer_durations := [("vote", 60)] }

/-- Witness for C7 at concrete inputs: a self-vote is rejected unchanged, a
vote from the disconnected Dana is rejected unchanged, and Alice's vote with
out-of-range confidence 5 succeeds and is recorded with confidence 1. -/
theorem C7_witness :
    record_vote 9 voteExampleState "Alice" "Alice" 2 =
      (voteExampleState, false, some ERR_INVALID_TARGET) ∧
    record_vote 9 voteExampleState "Dana" "Alice" 2 =
      (voteExampleState, false, some ERR_PLAYER_NOT_FOUND) ∧
    (record_vote 9 voteExampleState "Alice" "Bob" 5).2 = (true, none) ∧
    dictLookup (record_vote 9 voteExampleState "Alice" "Bob" 5).1.votes
      "Alice" = some ⟨some "Bob", 1, 9, false⟩ := by
  refine ⟨?_, ?_, ?_, ?_⟩
  · exact (C7_record_vote_guards 9 voteExampleState "Alice" "Alice" 2).2.2.2.2.2.1
      { name := "Alice", session_token := "ta" } rfl (by decide) rfl
      (by decide) (by decide) rfl
  · exact (C7_record_vote_guards 9 voteExampleState "Dana" "Alice" 2).2.2.1
      { name := "Dana", session_token := "td", connected := false } rfl
      (by decide) rfl
  · exact ((C7_record_vote_guards 9 voteExampleState "Alice" "Bob" 5).2.2.2.2.2.2
      { name := "Alice", session_token := "ta" } rfl (by decide) rfl
      (by decide) (by decide) (by decide) (by decide) (by decide)
      (by decide)).1
  · exact ((C7_record_vote_guards 9 voteExampleState "Alice" "Bob" 5).2.2.2.2.2.2
      { name := "Alice", session_token := "ta" } rfl (by decide) rfl
      (by decide) (by decide) (by decide) (by decide) (by decide)
      (by decide)).2

/-! ### C10: frame of a successful vote -/

/-- C10: a successful `record_vote` returns `(True, None)` and mutates only
the votes map — appending exactly one new entry for the voter — plus, when
every connected player now has a vote, cancelling the named `vote` timer;
every other field is unchanged, in particular the phase is still `VOTE`
(`record_vote` performs no transition to `REVEAL`), and when some connected
player is still missing a vote the timer maps are untouched. -/
theorem C10_record_vote_frame (now : Int) (s : GameState)
    (player_name target : String) (confidence : Int) (voter : PlayerSession)
    (hphase : s.phase = .VOTE)
    (hvoter : dictLookup s.players player_name = some voter)
    (hconn : voter.connected = true)
    (hnotv : dictContains s.votes player_name = false)
    (htarget : (dictLookup s.players target).isSome = true)
    (hne : target ≠ player_name) :
    ∃ s2, record_vote now s player_name target confidence = (s2, true, none) ∧
      s2.votes = s.votes ++ [(player_name,
        ⟨some target,
         (if confidence = 1 ∨ confidence = 2 ∨ confidence = 3
          then confidence else 1), now, false⟩)] ∧
      s2.phase = .VOTE ∧
      s2.players = s.players ∧ s2.sessions = s.sessions ∧
      s2.previous_phase = s.previous_phase ∧ s2.session_id = s.session_id ∧
      s2.created_at = s.created_at ∧ s2.host_id = s.host_id ∧
      s2.round_duration = s.round_duration ∧ s2.round_count = s.round_count ∧
      s2.vote_caller = s.vote_caller ∧ s2.vote_duration = s.vote_duration ∧
      s2.spy_guess = s.spy_guess ∧ s2.spy_action_taken = s.spy_action_taken ∧
      s2.convicted_player = s.convicted_player ∧
      s2.vote_results = s.vote_results ∧ s2.round_scores = s.round_scores ∧
      s2.spy_caught = s.spy_caught ∧ s2.config = s.config ∧
      s2.current_round = s.current_round ∧ s2.player_count = s.player_count ∧
      s2.game_started = s.game_started ∧ s2.spy_name = s.spy_name ∧
      s2.current_location = s.current_location ∧
      s2.player_roles = s.player_roles ∧
      s2.current_questioner_id = s.current_questioner_id ∧
      s2.current_answerer_id = s.current_answerer_id ∧
      s2.turn_order = s.turn_order ∧ s2.round_history = s.round_history ∧
      (all_votes_submitted s2 = true → timerActive s2 "vote" = false) ∧
      (all_votes_submitted s2 = false → s2.timers = s.timers ∧
        s2.timer_start_times = s.timer_start_times ∧
        s2.timer_durations = s.timer_durations) := by
  have hvnone : dictLookup s.votes player_name = none := by
    cases h : dictLookup s.votes player_name with
    | none => rfl
    | some v =>
      exfalso
      rw [dictContains, h] at hnotv
      simp at hnotv
  have hne2 : ¬(target = player_name) := hne
  have hisnone : (dictLookup s.players target).isNone = false := by
    cases h : dictLookup s.players target with
    | none => rw [h] at htarget; simp at htarget
    | some _ => rfl
  set conf := (if confidence = 1 ∨ confidence = 2 ∨ confidence = 3
    then confidence else 1) with hconfdef
  set vote : Vote := (⟨some target, conf, now, false⟩ : Vote) with hvotedef
  set s1 : GameState :=
    { s with votes := dictInsert s.votes player_name vote } with hs1def
  have happend : s1.votes = s.votes ++ [(player_name, vote)] :=
    dictInsert_append_of_notmem s.votes player_name vote hvnone
  have hr : record_vote now s player_name target confidence =
      (if all_votes_submitted s1 then cancel_timer s1 "vote" else s1,
       true, none) := by
    simp [record_vote, hphase, hvoter, hconn, hnotv, hisnone, hne2,
      hs1def, hvotedef, hconfdef]
  by_cases hall : all_votes_submitted s1 = true
  · obtain ⟨t1, t2, t3, hshape⟩ := cancel_timer_shape s1 "vote"
    have hallcancel : all_votes_submitted (cancel_timer s1 "vote") =
        all_votes_submitted s1 := by rw [hshape]; rfl
    refine ⟨cancel_timer s1 "vote", by rw [hr, if_pos hall], ?_⟩
    rw [hshape]
    refine ⟨happend, hphase, rfl, rfl, rfl, rfl, rfl, rfl, rfl, rfl, rfl, rfl, rfl, rfl, rfl, rfl, rfl, rfl, rfl, rfl, rfl, rfl, rfl, rfl, rfl, rfl, rfl, rfl, rfl, ?_, ?_⟩
    · intro _
      rw [← hshape]
      exact timerActive_cancel s1 "vote"
    · intro hfalse
      rw [← hshape, hallcancel, hall] at hfalse
      exact absurd hfalse (by simp)
  · have hall2 : all_votes_submitted s1 = false := by
      cases h : all_votes_submitted s1
      · rfl
      · exact absurd h hall
    refine ⟨s1, by rw [hr, if_neg (by rw [hall2]; simp)], happend, ?_⟩
    refine ⟨hphase, rfl, rfl, rfl, rfl, rfl, rfl, rfl, rfl, rfl, rfl, rfl, rfl, rfl, rfl, rfl, rfl, rfl, rfl, rfl, rfl, rfl, rfl, rfl, rfl, rfl, rfl, rfl, ?_, ?_⟩
    · intro htrue
      rw [hall2] at htrue
      exact absurd htrue (by simp)
    · intro _
      exact ⟨rfl, rfl, rfl⟩

/-- Witness for C10 at a concrete input: Carol's vote succeeds (Dana is
disconnected, Bob and Alice have voted, so Carol is the last outstanding
connected voter), the vote timer is cancelled, and the phase stays `VOTE`. -/
theorem C10_witness :
    ∃ s2, record_vote 9
        { voteExampleState with
          votes := [("Bob", ⟨some "Alice", 2, 0, false⟩),
                    ("Alice", ⟨some "Bob", 2, 1, false⟩)] }
        "Carol" "Bob" 2 = (s2, true, none) ∧
      s2.phase = .VOTE ∧ timerActive s2 "vote" = false := by
  obtain ⟨s2, hr, hvotes, hph, hpl, _, _, _, _, _, _, _, _, _, _, _, _, _, _, _, _, _, _, _, _, _, _, _, _, _, _, ht1, _⟩ := C10_record_vote_frame 9
    { voteExampleState with
      votes := [("Bob", ⟨some "Alice", 2, 0, false⟩),
                ("Alice", ⟨some "Bob", 2, 1, false⟩)] }
    "Carol" "Bob" 2 { name := "Carol", session_token := "tc" }
    rfl (by decide) rfl (by decide) (by decide) (by decide)
  refine ⟨s2, hr, hph, ?_⟩
  apply ht1
  simp only [all_votes_submitted, hpl, hvotes]
  decide

/-! ## Player sessions and reconnection (`game/player.py`, `game/state.py`) -/

/-- `PlayerSession.is_session_valid`: true when never disconnected or still
strictly inside the reconnection window. -/
def is_session_valid (now : Int) (p : PlayerSession) : Bool :=
  match p.disconnected_at with
  | none => true
  | some t => now - t < RECONNECT_WINDOW_SECONDS

/-- `PlayerSession.reconnect`: restores connectivity, clears the disconnect
timestamp for a fresh window, refreshes the heartbeat (the new websocket
handle carries no game data and is not modelled). -/
def reconnect (now : Int) (p : PlayerSession) : PlayerSession :=
  { p with connected := true, disconnected_at := none, last_heartbeat := now }

/-- In-place update of the entry for `k`, a no-op when `k` is absent.  In
Python `players[name]` and `sessions[token]` hold the *same*
`PlayerSession` object, so mutating it through one map is visible through
the other; here the shared object is updated in both maps explicitly. -/
def updateEntry {α : Type} (d : StrMap α) (k : String) (v : α) : StrMap α :=
  d.map (fun p => if p.1 = k then (k, v) else p)

/-- `GameState.restore_session`: token lookup, window validation with
eviction of expired sessions from both maps, and reconnection (which also
cancels the player's disconnect-grace timer). -/
def restore_session (now : Int) (s : GameState) (token : String) :
    GameState × Bool × Option String × Option PlayerSession :=
  match dictLookup s.sessions token with
  | none => (s, false, some ERR_INVALID_TOKEN, none)
  | some sess =>
    if is_session_valid now sess = false then
      let s1 := { s with sessions := dictRemove s.sessions token }
      let s2 :=
        if dictContains s1.players sess.name then
          let s3 := { s1 with players := dictRemove s1.players sess.name }
          { s3 with player_count := (s3.players.length : Int) }
        else s1
      (s2, false, some ERR_SESSION_EXPIRED, none)
    else
      let s1 := cancel_timer s ("disconnect_grace:" ++ sess.name)
      let sess2 := reconnect now sess
      let s2 := { s1 with
        sessions := updateEntry s1.sessions token sess2,
        players := updateEntry s1.players sess.name sess2 }
      (s2, true, none, some sess2)

theorem dictLookup_updateEntry_self {α : Type} (d : StrMap α) (k : String)
    (v w : α) (h : dictLookup d k = some w) :
    dictLookup (updateEntry d k v) k = some v := by
  induction d with
  | nil => simp [dictLookup] at h
  | cons p rest ih =>
    by_cases hp : p.1 = k
    · simp [updateEntry, dictLookup, hp]
    · simp only [dictLookup, if_neg hp] at h
      simpa [updateEntry, dictLookup, hp] using ih h

/-! ### C8: session restoration by token -/

/-- C8: `restore_session` (1) fails with `INVALID_TOKEN` and changes
nothing when the token maps to no session; (2) when the session's
disconnect elapsed time has reached the reconnection window
(`now - t ≥ RECONNECT_WINDOW_SECONDS`), evicts the session from both the
token-keyed and the name-keyed map and fails with `SESSION_EXPIRED`;
(3) otherwise succeeds, returning the session with connectivity restored
and the disconnect timestamp cleared to unset, and stores that session
back under its token. -/
theorem C8_restore_session (now : Int) (s : GameState) (token : String) :
    (dictLookup s.sessions token = none →
      restore_session now s token = (s, false, some ERR_INVALID_TOKEN, none)) ∧
    (∀ sess t, dictLookup s.sessions token = some sess →
      sess.disconnected_at = some t → RECONNECT_WINDOW_SECONDS ≤ now - t →
      (restore_session now s token).2.1 = false ∧
      (restore_session now s token).2.2.1 = some ERR_SESSION_EXPIRED ∧
      dictLookup (restore_session now s token).1.sessions token = none ∧
      dictLookup (restore_session now s token).1.players sess.name = none) ∧
    (∀ sess, dictLookup s.sessions token = some sess →
      is_session_valid now sess = true →
      (restore_session now s token).2.1 = true ∧
      (restore_session now s token).2.2.2 = some (reconnect now sess) ∧
      (reconnect now sess).connected = true ∧
      (reconnect now sess).disconnected_at = none ∧
      dictLookup (restore_session now s token).1.sessions token =
        some (reconnect now sess)) := by
  refine ⟨?_, ?_, ?_⟩
  · intro h
    simp [restore_session, h]
  · intro sess t hl hd hw
    have hinvalid : is_session_valid now sess = false := by
      rw [is_session_valid, hd]
      simp only [decide_eq_false_iff_not, not_lt]
      exact hw
    have hr : restore_session now s token =
        (if dictContains
            { s with sessions := dictRemove s.sessions token }.players sess.name
         then
           { s with sessions := dictRemove s.sessions token,
                    players := dictRemove s.players sess.name,
                    player_count := ((dictRemove s.players sess.name).length : Int) }
         else { s with sessions := dictRemove s.sessions token },
         false, some ERR_SESSION_EXPIRED, none) := by
      simp [restore_session, hl, hinvalid]
    rw [hr]
    by_cases hc : dictContains
        { s with sessions := dictRemove s.sessions token }.players sess.name
    · rw [if_pos hc]
      exact ⟨rfl, rfl, dictLookup_dictRemove_self _ _,
        dictLookup_dictRemove_self _ _⟩
    · rw [if_neg hc]
      refine ⟨rfl, rfl, dictLookup_dictRemove_self _ _, ?_⟩
      simp only [dictContains] at hc
      cases h2 : dictLookup s.players sess.name with
      | none => rfl
      | some p =>
        exfalso
        apply hc
        rw [h2]
        rfl
  · intro sess hl hvalid
    have hr : restore_session now s token =
        ({ (cancel_timer s ("disconnect_grace:" ++ sess.name)) with
            sessions := updateEntry
              (cancel_timer s ("disconnect_grace:" ++ sess.name)).sessions
              token (reconnect now sess),
            players := updateEntry
              (cancel_timer s ("disconnect_grace:" ++ sess.name)).players
              sess.name (reconnect now sess) },
         true, none, some (reconnect now sess)) := by
      simp [restore_session, hl, hvalid]
    rw [hr]
    obtain ⟨t1, t2, t3, hshape⟩ :=
      cancel_timer_shape s ("disconnect_grace:" ++ sess.name)
    refine ⟨rfl, rfl, rfl, rfl, ?_⟩
    have hsess : (cancel_timer s ("disconnect_grace:" ++ sess.name)).sessions =
        s.sessions := by rw [hshape]
    rw [hsess]
    exact dictLookup_updateEntry_self s.sessions token (reconnect now sess)
      sess hl

/-- Eve: disconnected 100 seconds before `now = 1100`. -/
def eveSession : PlayerSession :=
  { name := "Eve", session_token := "te", connected := false,
    disconnected_at := some 1000 }

/-- Mallory: disconnected 400 seconds before `now = 1100` (window 300). -/
def mallorySession : PlayerSession :=
  { name := "Mallory", session_token := "tm", connected := false,
    disconnected_at := some 700 }

/-- A session registry holding Eve and Mallory under both maps. -/
def reconnectExampleState : GameState :=
  { players := [("Eve", eveSession), ("Mallory", mallorySession)],
    sessions := [("te", eveSession), ("tm", mallorySession)] }

/-- Witness for C8 at `now = 1100`: an unknown token fails with
`INVALID_TOKEN` and no change; Mallory's 400-second-old session is evicted
from both maps with `SESSION_EXPIRED`; Eve's 100-second-old session is
restored with connectivity back and the disconnect timestamp cleared. -/
theorem C8_witness :
    restore_session 1100 reconnectExampleState "bogus" =
      (reconnectExampleState, false, some ERR_INVALID_TOKEN, none) ∧
    ((restore_session 1100 reconnectExampleState "tm").2.2.1 =
        some ERR_SESSION_EXPIRED ∧
      dictLookup (restore_session 1100 reconnectExampleState "tm").1.sessions
        "tm" = none ∧
      dictLookup (restore_session 1100 reconnectExampleState "tm").1.players
        "Mallory" = none) ∧
    ((restore_session 1100 reconnectExampleState "te").2.1 = true ∧
      (reconnect 1100 eveSession).connected = true ∧
      (reconnect 1100 eveSession).disconnected_at = none) := by
  refine ⟨?_, ?_, ?_⟩
  · exact (C8_restore_session 1100 reconnectExampleState "bogus").1 (by decide)
  · obtain ⟨_, h2, h3, h4⟩ := (C8_restore_session 1100 reconnectExampleState
      "tm").2.1 mallorySession 700 (by decide) rfl (by decide)
    exact ⟨h2, h3, h4⟩
  · obtain ⟨h1, _, h3, h4, _⟩ := (C8_restore_session 1100 reconnectExampleState
      "te").2.2 eveSession (by decide) (by decide)
    exact ⟨h1, h3, h4⟩

/-! ## Role assignment (`game/roles.py`) and game start (`game/state.py`)

`secrets.choice` calls are passed in as oracle functions; the loaded
content-pack registry (`content._LOADED_PACKS`) is an explicit environment.
Python raises `ValueError` / `RuntimeError` out of `assign_roles` while the
state object keeps every mutation made before the raise, so `assign_roles`
returns the partially mutated state next to an optional failure. -/

/-- The module-level registry of loaded content packs. -/
structure ContentEnv where
  packs : StrMap LocationPack

inductive PyFailure where
  | valueError
  | runtimeError
deriving DecidableEq, Repr

/-- Oracles for the CSPRNG choices made during assignment. -/
structure RoleRng where
  pick_location : List Location → Location
  pick_spy : List String → String
  pick_role : String → List Role → Role

/-- `content.get_random_location`: raises `RuntimeError` when no packs are
loaded, returns `None` for a missing or empty pack, else a choice. -/
def get_random_location (env : ContentEnv) (rng : RoleRng) (pack_id : String) :
    Except PyFailure (Option Location) :=
  if env.packs.isEmpty then .error .runtimeError
  else
    match dictLookup env.packs pack_id with
    | none => .ok none
    | some pack =>
        if pack.locations.isEmpty then .ok none
        else .ok (some (rng.pick_location pack.locations))

/-- `roles.assign_spy`: requires at least `MIN_PLAYERS` connected players
(the empty check is subsumed), then picks one of them. -/
def assign_spy (rng : RoleRng) (s : GameState) : Except PyFailure String :=
  let connected_players := (s.players.filter (fun p => p.2.connected)).map Prod.fst
  if connected_players.isEmpty then .error .valueError
  else if connected_players.length < MIN_PLAYERS then .error .valueError
  else .ok (rng.pick_spy connected_players)

/-- `roles.assign_roles`: selects the location (mutating
`current_location` first), assigns the spy, validates the role list, and
distributes roles to the connected non-spy players.  On failure the state
keeps all mutations made before the Python `raise`. -/
def assign_roles (env : ContentEnv) (rng : RoleRng) (s : GameState) :
    GameState × Option PyFailure :=
  match get_random_location env rng s.config.location_pack with
  | .error e => (s, some e)
  | .ok locOpt =>
    let s1 := { s with current_location := locOpt }
    match locOpt with
    | none => (s1, some .valueError)
    | some loc =>
      match assign_spy rng s1 with
      | .error e => (s1, some e)
      | .ok spy =>
        let s2 := { s1 with spy_name := some spy }
        let connected_players := ((s2.players.filter
          (fun p => p.2.connected && !(p.1 == spy))).map Prod.fst)
        let available_roles := loc.roles
        if available_roles.isEmpty then (s2, some .valueError)
        else
          let s3 := { s2 with
            player_roles := connected_players.map
              (fun n => (n, rng.pick_role n available_roles)) }
          (s3, none)

/-- Outcome of a start attempt: success, structured error, or an uncaught
Python exception leaving the mutated state behind. -/
inductive StartResult where
  | ok
  | err (code : String)
  | raised (e : PyFailure)
deriving DecidableEq, Repr

/-- `GameState.cancel_all_timers`. -/
def cancel_all_timers (s : GameState) : GameState :=
  { s with timers := [], timer_start_times := [], timer_durations := [] }

/-- `GameState._save_round_history` (creates the attribute on first use). -/
def save_round_history (s : GameState) : GameState :=
  let hist := s.round_history.getD []
  { s with round_history := some (hist ++ [{
      round := s.current_round,
      spy := s.spy_name,
      location := s.current_location.map (fun l => l.id),
      convicted := s.convicted_player,
      spy_caught := s.spy_caught,
      scores := s.round_scores }]) }

/-- `GameState._reset_for_new_round`. -/
def reset_for_new_round (s : GameState) : GameState :=
  cancel_all_timers
    { s with votes := [], vote_results := none, convicted_player := none,
             spy_guess := none, spy_action_taken := false,
             round_scores := [], spy_caught := false, vote_caller := none,
             current_questioner_id := none, current_answerer_id := none,
             turn_order := [] }

/-- `GameState.start_game`.  The rollback branch sets `_game_started` and
`current_round` back and then calls `transition_to(LOBBY)`, discarding its
result — exactly as the source does. -/
def start_game (env : ContentEnv) (rng : RoleRng) (now : Int) (s : GameState) :
    GameState × StartResult :=
  if s.phase ≠ .LOBBY then (s, .err ERR_INVALID_PHASE)
  else if s.game_started then (s, .err ERR_GAME_ALREADY_STARTED)
  else
    let connected_count := (s.players.filter (fun p => p.2.connected)).length
    if connected_count < MIN_PLAYERS then (s, .err ERR_NOT_ENOUGH_PLAYERS)
    else if connected_count > MAX_PLAYERS then (s, .err ERR_GAME_FULL)
    else
      let s1 := { s with player_count := (connected_count : Int) }
      let tr := transition_to s1 .ROLES
      if tr.2.1 = false then (s1, .err ERR_INVALID_PHASE)
      else
        let s2 := { tr.1 with current_round := 1, game_started := true }
        let ar := assign_roles env rng s2
        match ar.2 with
        | some .runtimeError => (ar.1, .raised .runtimeError)
        | some .valueError =>
          let s3 := { ar.1 with game_started := false, current_round := 0 }
          let s4 := (transition_to s3 .LOBBY).1
          (s4, .err ERR_ROLE_ASSIGNMENT_FAILED)
        | none => (start_timer now ar.1 "role_display" 5, .ok)

/-- `GameState.start_next_round`.  On a role-assignment failure the source
returns `(False, "role_assignment_failed")` with no rollback at all. -/
def start_next_round (env : ContentEnv) (rng : RoleRng) (now : Int)
    (s : GameState) : GameState × StartResult :=
  if s.phase ≠ .SCORING then (s, .err ERR_INVALID_PHASE)
  else if s.config.num_rounds ≤ s.current_round then (s, .err ERR_GAME_ENDED)
  else
    let s1 := save_round_history s
    let s2 := reset_for_new_round s1
    let s3 := { s2 with current_round := s2.current_round + 1 }
    let ar := assign_roles env rng s3
    match ar.2 with
    | some .runtimeError => (ar.1, .raised .runtimeError)
    | some .valueError => (ar.1, .err "role_assignment_failed")
    | none =>
      let s4 := { ar.1 with phase := .ROLES }
      (start_timer now s4 "role_display" 5, .ok)

/-! ### C9: failed role assignment does not roll back cleanly -/

/-- A location with an empty role list. -/
def emptyRolesLocation : Location := { id := "void", name := "Void", roles := [] }

/-- A loaded registry whose `classic` pack only offers the empty-roles
location, so assignment always fails with the role-list `ValueError`. -/
def bugContentEnv : ContentEnv :=
  { packs := [("classic", { locations := [emptyRolesLocation] })] }

/-- Deterministic stand-ins for the `secrets.choice` calls. -/
def bugRng : RoleRng :=
  { pick_location := fun l => l.headD emptyRolesLocation,
    pick_spy := fun l => l.headD "",
    pick_role := fun _ rs => rs.headD { name := "", hint := "" } }

/-- A lobby with four connected players, ready to start. -/
def bugLobbyState : GameState :=
  { players := [("Alice", { name := "Alice", session_token := "ta" }),
                ("Bob", { name := "Bob", session_token := "tb" }),
                ("Carol", { name := "Carol", session_token := "tc" }),
                ("Dana", { name := "Dana", session_token := "td" })] }

/-- The same table in `SCORING` after round 1 of 5. -/
def bugScoringState : GameState :=
  { bugLobbyState with
    phase := .SCORING
    current_round := 1
    game_started := true }

/-- C9 (code bug): when role assignment fails, `start_game` does return
`ROLE_ASSIGNMENT_FAILED` and resets `_game_started` and `current_round`,
but its `transition_to(GamePhase.LOBBY)` rollback is silently rejected —
`ROLES → LOBBY` is not in `VALID_TRANSITIONS` and the discarded result is
`(False, INVALID_PHASE)` — so the session is left in phase `ROLES`, not the
pre-call `LOBBY`.  `start_next_round` performs no rollback at all: after
the same failure the round counter remains incremented (2 instead of the
pre-call 1).  Both contradict the claim (and the source's own "Rollback
state on role assignment failure" comment). -/
theorem C9_rollback_incomplete :
    (start_game bugContentEnv bugRng 0 bugLobbyState).2 =
      .err ERR_ROLE_ASSIGNMENT_FAILED ∧
    bugLobbyState.phase = .LOBBY ∧
    (start_game bugContentEnv bugRng 0 bugLobbyState).1.game_started = false ∧
    (start_game bugContentEnv bugRng 0 bugLobbyState).1.current_round = 0 ∧
    (start_game bugContentEnv bugRng 0 bugLobbyState).1.phase = .ROLES ∧
    (start_next_round bugContentEnv bugRng 0 bugScoringState).2 =
      .err "role_assignment_failed" ∧
    bugScoringState.current_round = 1 ∧
    (start_next_round bugContentEnv bugRng 0 bugScoringState).1.current_round
      = 2 ∧
    (start_next_round bugContentEnv bugRng 0 bugScoringState).1.phase =
      .SCORING := by
  refine ⟨?_, ?_, ?_, ?_, ?_, ?_, ?_, ?_, ?_⟩ <;> decide

/-! ## JSON snapshots and the per-viewer projection (`GameState.get_state`,
`roles.get_player_role_data`) -/

/-- A JSON-serializable value, as produced for state broadcasts. -/
inductive Json where
  | null
  | jbool (b : Bool)
  | jnum (n : Int)
  | jstr (s : String)
  | jarr (items : List Json)
  | jobj (fields : List (String × Json))
deriving Repr

mutual
/-- Whether the serialized snapshot contains key `k` at any nesting depth. -/
def containsKey : Json → String → Bool
  | .null, _ => false
  | .jbool _, _ => false
  | .jnum _, _ => false
  | .jstr _, _ => false
  | .jarr items, k => containsKeyArr items k
  | .jobj fields, k => containsKeyObj fields k

def containsKeyArr : List Json → String → Bool
  | [], _ => false
  | j :: rest, k => containsKey j k || containsKeyArr rest k

def containsKeyObj : List (String × Json) → String → Bool
  | [], _ => false
  | f :: rest, k => (f.1 == k) || containsKey f.2 k || containsKeyObj rest k
end

def jsonOfOptStr : Option String → Json
  | some v => .jstr v
  | none => .null

def jsonOfOptInt : Option Int → Json
  | some v => .jnum v
  | none => .null

/-- Python truthiness of an optional string (`None` and `""` are falsy). -/
def truthyStr : Option String → Bool
  | some v => v ≠ ""
  | none => false

/-- `content.get_location_list`: raises `RuntimeError` when no packs are
loaded, returns `[]` for a missing or empty pack, else `(id, name)`
pairs. -/
def get_location_list (env : ContentEnv) (pack_id : String) :
    Except PyFailure (List (String × String)) :=
  if env.packs.isEmpty then .error .runtimeError
  else
    match dictLookup env.packs pack_id with
    | none => .ok []
    | some pack =>
        if pack.locations.isEmpty then .ok []
        else .ok (pack.locations.map (fun l => (l.id, l.name)))

/-- The fallback role when a non-spy has no assigned role (the source hint
text carries an apostrophe, elided here). -/
def defaultVisitorRole : Role :=
  { name := "Visitor", hint := "You are just passing through" }

/-- `roles.get_player_role_data`: raises `ValueError` when no location is
assigned; the spy branch calls `get_location_list`, whose `RuntimeError`
escapes uncaught. -/
def get_player_role_data (env : ContentEnv) (s : GameState)
    (player_name : String) : Except PyFailure (List (String × Json)) :=
  match s.current_location with
  | none => .error .valueError
  | some loc =>
    if s.spy_name = some player_name then
      match get_location_list env s.config.location_pack with
      | .error e => .error e
      | .ok ll =>
        .ok [("is_spy", .jbool true),
             ("possible_locations", .jarr (ll.map (fun l =>
               Json.jobj [("id", .jstr l.1), ("name", .jstr l.2)])))]
    else
      let role := (dictLookup s.player_roles player_name).getD defaultVisitorRole
      .ok [("is_spy", .jbool false),
           ("location", .jstr loc.name),
           ("role", .jstr role.name),
           ("hint", .jstr role.hint),
           ("other_roles", .jarr ((loc.roles.filter
             (fun r => !(r.name == role.name))).map (fun r => Json.jstr r.name)))]

/-- `GameState._get_timer_remaining`. -/
def timer_remaining (now : Int) (s : GameState) (name : String) : Int :=
  match dictLookup s.timers name with
  | none => 0
  | some t =>
    if t.done then 0
    else
      match dictLookup s.timer_start_times name with
      | none => 0
      | some st =>
        max 0 ((dictLookup s.timer_durations name).getD 0 - (now - st))

/-- `GameState.get_connected_player_count`. -/
def get_connected_player_count (s : GameState) : Nat :=
  (s.players.filter (fun p => p.2.connected)).length

/-- `GameState.can_start_game`. -/
def can_start_game (s : GameState) : Bool :=
  if s.phase ≠ .LOBBY then false
  else if s.game_started then false
  else decide (MIN_PLAYERS ≤ get_connected_player_count s ∧
    get_connected_player_count s ≤ MAX_PLAYERS)

/-- `PlayerSession.get_disconnect_duration`. -/
def get_disconnect_duration (now : Int) (p : PlayerSession) : Option Int :=
  if p.connected then none
  else
    match p.disconnected_at with
    | none => none
    | some t => some (now - t)

/-- `GameConfig.to_dict`. -/
def configJson (c : GameConfig) : Json :=
  .jobj [("round_duration_minutes", .jnum c.round_duration_minutes),
         ("num_rounds", .jnum c.num_rounds),
         ("location_pack", .jstr c.location_pack)]

/-- The always-present head of the state dict, including the optional
`timer` block. -/
def baseFields (now : Int) (s : GameState) : List (String × Json) :=
  [("session_id", jsonOfOptStr s.session_id),
   ("phase", .jstr s.phase.value),
   ("player_count", .jnum s.player_count),
   ("current_round", .jnum s.current_round),
   ("round_count", .jnum s.round_count),
   ("created_at", jsonOfOptInt s.created_at)]
  ++ (if timerActive s "round" then
        [("timer", Json.jobj [("name", .jstr "round"),
          ("remaining", .jnum (timer_remaining now s "round")),
          ("total", .jnum ((dictLookup s.timer_durations "round").getD 0))])]
      else if timerActive s "vote" then
        [("timer", Json.jobj [("name", .jstr "vote"),
          ("remaining", .jnum (timer_remaining now s "vote")),
          ("total", .jnum ((dictLookup s.timer_durations "vote").getD 0))])]
      else [])

/-- The `LOBBY` branch of `get_state`. -/
def lobbyFields (now : Int) (s : GameState) : List (String × Json) :=
  [("waiting_for_players", .jbool true),
   ("min_players", .jnum (MIN_PLAYERS : Int)),
   ("max_players", .jnum (MAX_PLAYERS : Int)),
   ("connected_count", .jnum (get_connected_player_count s : Int)),
   ("can_start", .jbool (can_start_game s)),
   ("config", configJson s.config),
   ("players", .jarr (s.players.map (fun p =>
     Json.jobj [("name", .jstr p.2.name),
            ("connected", .jbool p.2.connected),
            ("is_host", .jbool p.2.is_host),
            ("disconnect_duration",
              jsonOfOptInt (get_disconnect_duration now p.2))])))]

/-- The personalized `role_data` field of the `ROLES` and `QUESTIONING`
branches: only for a truthy viewer registered in `players`, omitted on
`ValueError` (no location yet); a `RuntimeError` escapes `get_state`. -/
def roleDataField (env : ContentEnv) (s : GameState) (fp : Option String) :
    Except PyFailure (List (String × Json)) :=
  if truthyStr fp = false then .ok []
  else
    match fp with
    | none => .ok []
    | some w =>
      if dictContains s.players w = false then .ok []
      else
        match get_player_role_data env s w with
        | .ok rd => .ok [("role_data", .jobj rd)]
        | .error .valueError => .ok []
        | .error .runtimeError => .error .runtimeError

/-- `GameState.get_current_turn_info`. -/
def get_current_turn_info (s : GameState) : List (String × Json) :=
  if s.phase ≠ .QUESTIONING then []
  else if truthyStr s.current_questioner_id = false then []
  else if truthyStr s.current_answerer_id = false then []
  else
    match s.current_questioner_id, s.current_answerer_id with
    | some q, some a =>
      match dictLookup s.players q, dictLookup s.players a with
      | some qp, some ap =>
        [("questioner", Json.jobj [("id", .jstr q), ("name", .jstr qp.name)]),
         ("answerer", Json.jobj [("id", .jstr a), ("name", .jstr ap.name)])]
      | _, _ => []
    | _, _ => []

def turnField (s : GameState) : List (String × Json) :=
  if (get_current_turn_info s).isEmpty then []
  else [("current_turn", .jobj (get_current_turn_info s))]

/-- The personalized role data of the `VOTE` branch — merged into the top
level (`state.update(role_data)`), not wrapped. -/
def voteRoleData (env : ContentEnv) (s : GameState) (fp : Option String) :
    Except PyFailure (List (String × Json)) :=
  if truthyStr fp = false then .ok []
  else
    match fp with
    | none => .ok []
    | some w =>
      if dictContains s.players w = false then .ok []
      else
        match get_player_role_data env s w with
        | .ok rd => .ok rd
        | .error .valueError => .ok []
        | .error .runtimeError => .error .runtimeError

/-- `GameState._get_location_list`: the body does a relative import of
`get_location_pack`, but `content` defines no such function, so the lookup
raises and the bare `except` returns the empty list — always. -/
def get_location_list_for_spy (_s : GameState) : List Location := []

/-- The public remainder of the `VOTE` branch (Python assigns `is_spy`
twice for the spy — dict assignment overwrites, modelled as the later
field; only key-containment is read off this structure). -/
def votePublicFields (s : GameState) (fp : Option String) :
    List (String × Json) :=
  [("players", .jarr (s.players.map (fun p =>
     Json.jobj [("name", .jstr p.2.name), ("connected", .jbool p.2.connected)]))),
   ("votes_submitted", .jnum (s.votes.length : Int)),
   ("total_voters", .jnum (s.players.length : Int)),
   ("vote_caller", jsonOfOptStr s.vote_caller)]
  ++ (match fp with
      | some w =>
        if truthyStr (some w) then [("has_voted", .jbool (dictContains s.votes w))]
        else []
      | none => [])
  ++ (match fp with
      | some w =>
        if truthyStr (some w) && (s.spy_name == some w) then
          [("is_spy", .jbool true),
           ("can_guess_location", .jbool (!s.spy_action_taken)),
           ("location_list", .jarr ((get_location_list_for_spy s).map (fun l =>
             Json.jobj [("id", .jstr l.id), ("name", .jstr l.name)])))]
        else if truthyStr (some w) then [("is_spy", .jbool false)]
        else []
      | none => [])
  ++ [("spy_has_guessed", .jbool s.spy_guess.isSome)]

def jsonOfBreakdownItem : BreakdownItem → Json
  | .vote t c pts corr =>
      .jobj [("type", .jstr "vote"), ("target", jsonOfOptStr t),
             ("confidence", .jnum c), ("points", .jnum pts),
             ("correct", .jbool corr)]
  | .abstain pts => .jobj [("type", .jstr "abstain"), ("points", .jnum pts)]
  | .double_agent pts =>
      .jobj [("type", .jstr "double_agent"), ("points", .jnum pts)]
  | .location_guess corr pts =>
      .jobj [("type", .jstr "location_guess"), ("correct", .jbool corr),
             ("points", .jnum pts)]
  | .spy_guessed pts =>
      .jobj [("type", .jstr "spy_guessed"), ("points", .jnum pts)]

def jsonOfScoreEntry (e : ScoreEntry) : Json :=
  .jobj [("points", .jnum e.points), ("outcome", .jstr e.outcome),
         ("breakdown", .jarr (e.breakdown.map jsonOfBreakdownItem))]

def jsonOfScores (d : StrMap ScoreEntry) : Json :=
  .jobj (d.map (fun p => (p.1, jsonOfScoreEntry p.2)))

def jsonOfVoteResults (r : VoteResults) : Json :=
  .jobj [("vote_counts",
            Json.jobj (r.vote_counts.map (fun p => (p.1, Json.jnum (p.2 : Int))))),
         ("convicted", jsonOfOptStr r.convicted),
         ("max_votes", .jnum (r.max_votes : Int)),
         ("total_votes", .jnum (r.total_votes : Int)),
         ("abstentions", .jnum (r.abstentions : Int))]

/-- The `REVEAL` branch: all votes are exposed, the tally is computed on
demand (mutating `convicted_player`), and the actual spy and location are
disclosed to every viewer. -/
def revealFields (s : GameState) : List (String × Json) :=
  let recompute := s.vote_results.isNone
  let s2 := if recompute then (calculate_vote_results s).1 else s
  let results :=
    if recompute then (calculate_vote_results s).2
    else s.vote_results.getD (calculate_vote_results s).2
  [("votes", .jarr (s.votes.map (fun p =>
     Json.jobj [("voter", .jstr p.1), ("target", jsonOfOptStr p.2.target),
            ("confidence", .jnum p.2.confidence),
            ("abstained", .jbool p.2.abstained)]))),
   ("vote_results", jsonOfVoteResults results),
   ("convicted", jsonOfOptStr s2.convicted_player),
   ("actual_spy", jsonOfOptStr s.spy_name),
   ("location", .jobj [
      ("id", match s.current_location with
             | some l => .jstr l.id
             | none => .null),
      ("name", match s.current_location with
               | some l => .jstr l.name
               | none => .jstr "Unknown")]),
   ("spy_guess", match s.spy_guess with
      | some g => .jobj [("guessed", .jbool true),
          ("location_id", .jstr g.location_id), ("correct", .jbool g.correct)]
      | none => .jobj [("guessed", .jbool false)]),
   ("spy_caught", .jbool s.spy_caught),
   ("round_scores", jsonOfScores s.round_scores)]

/-- Stable descending insertion by score
(`sorted(..., key=score, reverse=True)`). -/
def insertByScoreDesc (p : String × PlayerSession) :
    List (String × PlayerSession) → List (String × PlayerSession)
  | [] => [p]
  | q :: rest =>
      if q.2.score ≤ p.2.score then p :: q :: rest
      else q :: insertByScoreDesc p rest

def sortPlayersByScoreDesc (l : List (String × PlayerSession)) :
    List (String × PlayerSession) :=
  l.foldr insertByScoreDesc []

/-- The `SCORING` branch. -/
def scoringFields (now : Int) (s : GameState) (fp : Option String) :
    List (String × Json) :=
  [("spy_caught", .jbool s.spy_caught),
   ("convicted", jsonOfOptStr s.convicted_player),
   ("actual_spy", jsonOfOptStr s.spy_name),
   ("round_scores", jsonOfScores s.round_scores),
   ("scores", .jobj (s.players.map (fun p => (p.2.name, Json.jnum p.2.score)))),
   ("standings", .jarr ((sortPlayersByScoreDesc s.players).map (fun p =>
     Json.jobj [("name", .jstr p.2.name), ("score", .jnum p.2.score),
            ("round_change", .jnum (match dictLookup s.round_scores p.2.name with
               | some e => e.points
               | none => 0)),
            ("is_self", .jbool (some p.2.name == fp))]))),
   ("round_number", .jnum s.current_round),
   ("total_rounds", .jnum s.config.num_rounds)]
  ++ (if timerActive s "scoring" then
        [("scoring_timer", .jnum (timer_remaining now s "scoring"))]
      else [])

/-- `GameState._determine_winner`. -/
def determine_winner (s : GameState) : Json :=
  match sortPlayersByScoreDesc s.players with
  | [] => .jobj [("name", .null), ("score", .jnum 0), ("is_tie", .jbool false)]
  | top :: rest =>
    let winners := (top :: rest).filter (fun p => p.2.score == top.2.score)
    if winners.length = 1 then
      .jobj [("name", .jstr top.2.name), ("score", .jnum top.2.score),
             ("is_tie", .jbool false), ("tied_players", .jarr [])]
    else
      .jobj [("name", .null), ("score", .jnum top.2.score),
             ("is_tie", .jbool true),
             ("tied_players", .jarr (winners.map (fun w => Json.jstr w.2.name)))]

/-- `GameState._get_game_stats`. -/
def game_stats (s : GameState) : List (String × Json) :=
  [("total_rounds", .jnum s.current_round)]
  ++ (match s.round_history with
      | some h =>
        [("spies_caught",
          Json.jnum (((h.filter (fun r => r.spy_caught)).length : Int)))]
      | none => [])

/-- The `END` branch. -/
def endFields (s : GameState) (fp : Option String) : List (String × Json) :=
  [("round_number", .jnum s.current_round),
   ("total_rounds", .jnum s.config.num_rounds),
   ("winner", determine_winner s),
   ("standings", .jarr ((sortPlayersByScoreDesc s.players).map (fun p =>
     Json.jobj [("name", .jstr p.2.name), ("score", .jnum p.2.score),
            ("is_self", .jbool (some p.2.name == fp))]))),
   ("final_standings", .jarr ((sortPlayersByScoreDesc s.players).map (fun p =>
     Json.jobj [("name", .jstr p.2.name), ("score", .jnum p.2.score),
            ("is_self", .jbool (some p.2.name == fp))]))),
   ("game_stats", .jobj (game_stats s))]

/-- `GameState.get_state`: the per-viewer snapshot.  `now` stands for
`time.time()`, `env` for the loaded content packs; the error case is the
uncaught `RuntimeError` from `get_location_list`. -/
def get_state (now : Int) (env : ContentEnv) (s : GameState)
    (for_player : Option String) : Except PyFailure Json :=
  let base := baseFields now s
  match s.phase with
  | .LOBBY => .ok (.jobj (base ++ lobbyFields now s))
  | .ROLES =>
    match roleDataField env s for_player with
    | .error e => .error e
    | .ok extra => .ok (.jobj (base ++ extra))
  | .QUESTIONING =>
    match roleDataField env s for_player with
    | .error e => .error e
    | .ok extra => .ok (.jobj (base ++ extra ++ turnField s))
  | .VOTE =>
    match voteRoleData env s for_player with
    | .error e => .error e
    | .ok rd => .ok (.jobj (base ++ rd ++ votePublicFields s for_player))
  | .REVEAL => .ok (.jobj (base ++ revealFields s))
  | .SCORING => .ok (.jobj (base ++ scoringFields now s for_player))
  | .END => .ok (.jobj (base ++ endFields s for_player))
  | .PAUSED => .ok (.jobj base)

/-! ### Key-containment lemmas -/

theorem containsKeyObj_append (a b : List (String × Json)) (k : String) :
    containsKeyObj (a ++ b) k = (containsKeyObj a k || containsKeyObj b k) := by
  induction a with
  | nil => simp [containsKeyObj]
  | cons f rest ih => simp [containsKeyObj, ih, Bool.or_assoc]

theorem containsKeyArr_map {α : Type} (l : List α) (f : α → Json) (k : String)
    (h : ∀ x, containsKey (f x) k = false) :
    containsKeyArr (l.map f) k = false := by
  induction l with
  | nil => simp [containsKeyArr]
  | cons x rest ih => simp [containsKeyArr, h x, ih]

theorem containsKeyObj_map {α : Type} (l : StrMap α) (f : α → Json) (k : String)
    (hk : ∀ p ∈ l, ¬p.1 = k) (h : ∀ p ∈ l, containsKey (f p.2) k = false) :
    containsKeyObj (l.map (fun p => (p.1, f p.2))) k = false := by
  induction l with
  | nil => simp [containsKeyObj]
  | cons p rest ih =>
    simp only [List.map_cons, containsKeyObj, Bool.or_eq_false_iff]
    refine ⟨⟨?_, ?_⟩, ?_⟩
    · exact beq_eq_false_iff_ne.mpr (hk p (List.mem_cons_self _ _))
    · exact h p (List.mem_cons_self _ _)
    · exact ih (fun q hq => hk q (List.mem_cons_of_mem _ hq))
        (fun q hq => h q (List.mem_cons_of_mem _ hq))

theorem containsKey_jsonOfOptStr (o : Option String) (k : String) :
    containsKey (jsonOfOptStr o) k = false := by
  cases o <;> simp [jsonOfOptStr, containsKey]

theorem containsKey_jsonOfOptInt (o : Option Int) (k : String) :
    containsKey (jsonOfOptInt o) k = false := by
  cases o <;> simp [jsonOfOptInt, containsKey]

/-- No field named `location`, `role`, or `possible_locations` anywhere. -/
def cleanFields (l : List (String × Json)) : Prop :=
  containsKeyObj l "location" = false ∧ containsKeyObj l "role" = false ∧
  containsKeyObj l "possible_locations" = false

theorem base_clean (now : Int) (s : GameState) :
    cleanFields (baseFields now s) := by
  refine ⟨?_, ?_, ?_⟩ <;>
  · simp only [baseFields, containsKeyObj_append, Bool.or_eq_false_iff]
    constructor
    · simp [containsKeyObj, containsKey, containsKey_jsonOfOptStr,
        containsKey_jsonOfOptInt]
    · split
      · simp [containsKeyObj, containsKey]
      · split
        · simp [containsKeyObj, containsKey]
        · simp [containsKeyObj]

theorem lobby_clean (now : Int) (s : GameState) :
    cleanFields (lobbyFields now s) := by
  refine ⟨?_, ?_, ?_⟩ <;>
  · simp [lobbyFields, containsKeyObj, containsKey, configJson,
      containsKey_jsonOfOptStr, containsKey_jsonOfOptInt]
    exact containsKeyArr_map _ _ _ (fun x => by
      simp [containsKey, containsKeyObj, containsKey_jsonOfOptInt])

theorem containsKey_jobj_append2 (a b : List (String × Json)) (k : String)
    (ha : containsKeyObj a k = false) (hb : containsKeyObj b k = false) :
    containsKey (.jobj (a ++ b)) k = false := by
  simp [containsKey, containsKeyObj_append, ha, hb]

theorem containsKey_jobj_append3 (a b c : List (String × Json)) (k : String)
    (ha : containsKeyObj a k = false) (hb : containsKeyObj b k = false)
    (hc : containsKeyObj c k = false) :
    containsKey (.jobj (a ++ b ++ c)) k = false := by
  simp [containsKey, containsKeyObj_append, ha, hb, hc]

theorem turnInfo_clean (s : GameState) :
    cleanFields (get_current_turn_info s) := by
  refine ⟨?_, ?_, ?_⟩ <;>
  · unfold get_current_turn_info
    split
    · simp [containsKeyObj]
    · split
      · simp [containsKeyObj]
      · split
        · simp [containsKeyObj]
        · split
          · split
            · simp [containsKeyObj, containsKey]
            · simp [containsKeyObj]
          · simp [containsKeyObj]

theorem turnField_clean (s : GameState) : cleanFields (turnField s) := by
  obtain ⟨h1, h2, h3⟩ := turnInfo_clean s
  refine ⟨?_, ?_, ?_⟩ <;>
  · unfold turnField
    split
    · simp [containsKeyObj]
    · simp [containsKeyObj, containsKey, h1, h2, h3]

theorem playersArr_clean (s : GameState) (k : String)
    (h1 : ("name" == k) = false) (h2 : ("connected" == k) = false) :
    containsKeyArr (s.players.map (fun p =>
      Json.jobj [("name", .jstr p.2.name),
                 ("connected", .jbool p.2.connected)])) k = false :=
  containsKeyArr_map _ _ _ (fun x => by
    simp [containsKey, containsKeyObj, h1, h2])

theorem votePublic_clean (s : GameState) (fp : Option String) :
    cleanFields (votePublicFields s fp) := by
  have ha1 := playersArr_clean s "location" (by decide) (by decide)
  have ha2 := playersArr_clean s "role" (by decide) (by decide)
  have ha3 := playersArr_clean s "possible_locations" (by decide) (by decide)
  refine ⟨?_, ?_, ?_⟩ <;>
  · cases fp with
    | none =>
      simp [votePublicFields, containsKeyObj_append, containsKeyObj,
        containsKey, containsKey_jsonOfOptStr, ha1, ha2, ha3]
    | some w =>
      simp only [votePublicFields]
      repeat' split
      all_goals simp [containsKeyObj_append, containsKeyObj, containsKey,
        containsKeyArr, containsKey_jsonOfOptStr, get_location_list_for_spy,
        ha1, ha2, ha3]

theorem spy_role_data_clean (env : ContentEnv) (s : GameState) (w : String)
    (rd : List (String × Json)) (hspy : s.spy_name = some w)
    (h : get_player_role_data env s w = .ok rd) :
    containsKeyObj rd "location" = false ∧ containsKeyObj rd "role" = false := by
  cases hloc : s.current_location with
  | none => simp [get_player_role_data, hloc] at h
  | some loc =>
    cases hll : get_location_list env s.config.location_pack with
    | error e => simp [get_player_role_data, hloc, hspy, hll] at h
    | ok ll =>
      simp only [get_player_role_data, hloc, hspy, hll] at h
      rw [if_pos trivial] at h
      simp only [Except.ok.injEq] at h
      subst h
      constructor <;>
      · simp [containsKeyObj, containsKey]
        exact containsKeyArr_map _ _ _
          (fun x => by simp [containsKey, containsKeyObj])

theorem nonspy_role_data_noploc (env : ContentEnv) (s : GameState)
    (w : String) (rd : List (String × Json)) (hspy : s.spy_name ≠ some w)
    (h : get_player_role_data env s w = .ok rd) :
    containsKeyObj rd "possible_locations" = false := by
  cases hloc : s.current_location with
  | none => simp [get_player_role_data, hloc] at h
  | some loc =>
    simp only [get_player_role_data, hloc, if_neg hspy, Except.ok.injEq] at h
    subst h
    simp [containsKeyObj, containsKey]
    exact containsKeyArr_map _ _ _ (fun x => by simp [containsKey])

theorem roleDataField_spy_clean (env : ContentEnv) (s : GameState)
    (w : String) (extra : List (String × Json)) (hspy : s.spy_name = some w)
    (h : roleDataField env s (some w) = .ok extra) :
    containsKeyObj extra "location" = false ∧
    containsKeyObj extra "role" = false := by
  simp only [roleDataField] at h
  split at h
  · simp only [Except.ok.injEq] at h
    subst h
    simp [containsKeyObj]
  · split at h
    · simp only [Except.ok.injEq] at h
      subst h
      simp [containsKeyObj]
    · split at h
      next rd heq =>
        simp only [Except.ok.injEq] at h
        subst h
        have hc := spy_role_data_clean env s w rd hspy heq
        exact ⟨by simp [containsKeyObj, containsKey, hc.1],
               by simp [containsKeyObj, containsKey, hc.2]⟩
      next heq =>
        simp only [Except.ok.injEq] at h
        subst h
        simp [containsKeyObj]
      next heq => exact absurd h (by simp)

theorem roleDataField_noploc (env : ContentEnv) (s : GameState)
    (v : Option String) (extra : List (String × Json))
    (hns : ∀ w, v = some w → s.spy_name ≠ some w)
    (h : roleDataField env s v = .ok extra) :
    containsKeyObj extra "possible_locations" = false := by
  cases v with
  | none =>
    simp only [roleDataField, truthyStr] at h
    rw [if_pos trivial] at h
    simp only [Except.ok.injEq] at h
    subst h
    simp [containsKeyObj]
  | some w =>
    have hspy := hns w rfl
    simp only [roleDataField] at h
    split at h
    · simp only [Except.ok.injEq] at h
      subst h
      simp [containsKeyObj]
    · split at h
      · simp only [Except.ok.injEq] at h
        subst h
        simp [containsKeyObj]
      · split at h
        next rd heq =>
          simp only [Except.ok.injEq] at h
          subst h
          have hc := nonspy_role_data_noploc env s w rd hspy heq
          simp [containsKeyObj, containsKey, hc]
        next heq =>
          simp only [Except.ok.injEq] at h
          subst h
          simp [containsKeyObj]
        next heq => exact absurd h (by simp)

theorem voteRoleData_spy_clean (env : ContentEnv) (s : GameState)
    (w : String) (rd : List (String × Json)) (hspy : s.spy_name = some w)
    (h : voteRoleData env s (some w) = .ok rd) :
    containsKeyObj rd "location" = false ∧
    containsKeyObj rd "role" = false := by
  simp only [voteRoleData] at h
  split at h
  · simp only [Except.ok.injEq] at h
    subst h
    simp [containsKeyObj]
  · split at h
    · simp only [Except.ok.injEq] at h
      subst h
      simp [containsKeyObj]
    · split at h
      next rd2 heq =>
        simp only [Except.ok.injEq] at h
        subst h
        exact spy_role_data_clean env s w rd2 hspy heq
      next heq =>
        simp only [Except.ok.injEq] at h
        subst h
        simp [containsKeyObj]
      next heq => exact absurd h (by simp)

theorem voteRoleData_noploc (env : ContentEnv) (s : GameState)
    (v : Option String) (rd : List (String × Json))
    (hns : ∀ w, v = some w → s.spy_name ≠ some w)
    (h : voteRoleData env s v = .ok rd) :
    containsKeyObj rd "possible_locations" = false := by
  cases v with
  | none =>
    simp only [voteRoleData, truthyStr] at h
    rw [if_pos trivial] at h
    simp only [Except.ok.injEq] at h
    subst h
    simp [containsKeyObj]
  | some w =>
    have hspy := hns w rfl
    simp only [voteRoleData] at h
    split at h
    · simp only [Except.ok.injEq] at h
      subst h
      simp [containsKeyObj]
    · split at h
      · simp only [Except.ok.injEq] at h
        subst h
        simp [containsKeyObj]
      · split at h
        next rd2 heq =>
          simp only [Except.ok.injEq] at h
          subst h
          exact nonspy_role_data_noploc env s w rd2 hspy heq
        next heq =>
          simp only [Except.ok.injEq] at h
          subst h
          simp [containsKeyObj]
        next heq => exact absurd h (by simp)

/-- Names that cannot collide with the sensitive snapshot keys. -/
def cleanName (n : String) : Prop :=
  ¬n = "location" ∧ ¬n = "role" ∧ ¬n = "possible_locations"

theorem containsKeyObj_map_named {α : Type} (l : List α) (g : α → String)
    (f : α → Json) (k : String) (hk : ∀ x ∈ l, ¬g x = k)
    (h : ∀ x ∈ l, containsKey (f x) k = false) :
    containsKeyObj (l.map (fun x => (g x, f x))) k = false := by
  induction l with
  | nil => simp [containsKeyObj]
  | cons x rest ih =>
    simp only [List.map_cons, containsKeyObj, Bool.or_eq_false_iff]
    refine ⟨⟨?_, ?_⟩, ?_⟩
    · exact beq_eq_false_iff_ne.mpr (hk x (List.mem_cons_self _ _))
    · exact h x (List.mem_cons_self _ _)
    · exact ih (fun q hq => hk q (List.mem_cons_of_mem _ hq))
        (fun q hq => h q (List.mem_cons_of_mem _ hq))

theorem jsonOfScoreEntry_clean (e : ScoreEntry) :
    containsKey (jsonOfScoreEntry e) "location" = false ∧
    containsKey (jsonOfScoreEntry e) "role" = false ∧
    containsKey (jsonOfScoreEntry e) "possible_locations" = false := by
  refine ⟨?_, ?_, ?_⟩ <;>
  · simp [jsonOfScoreEntry, containsKey, containsKeyObj]
    exact containsKeyArr_map _ _ _ (fun b => by
      cases b <;> simp [jsonOfBreakdownItem, containsKey, containsKeyObj,
        containsKey_jsonOfOptStr])

theorem jsonOfScores_clean (d : StrMap ScoreEntry)
    (hk : ∀ p ∈ d, cleanName p.1) :
    containsKey (jsonOfScores d) "location" = false ∧
    containsKey (jsonOfScores d) "role" = false ∧
    containsKey (jsonOfScores d) "possible_locations" = false := by
  refine ⟨?_, ?_, ?_⟩
  · exact containsKeyObj_map d jsonOfScoreEntry "location"
      (fun p hp => (hk p hp).1) (fun p hp => (jsonOfScoreEntry_clean p.2).1)
  · exact containsKeyObj_map d jsonOfScoreEntry "role"
      (fun p hp => (hk p hp).2.1) (fun p hp => (jsonOfScoreEntry_clean p.2).2.1)
  · exact containsKeyObj_map d jsonOfScoreEntry "possible_locations"
      (fun p hp => (hk p hp).2.2) (fun p hp => (jsonOfScoreEntry_clean p.2).2.2)

theorem voteCounts_clean (l : StrMap Nat) (k : String)
    (hk : ∀ p ∈ l, ¬p.1 = k) :
    containsKeyObj (l.map (fun p => (p.1, Json.jnum (p.2 : Int)))) k = false :=
  containsKeyObj_map l (fun n => Json.jnum (n : Int)) k hk
    (fun p hp => by simp [containsKey])

theorem jsonOfVoteResults_clean (r : VoteResults)
    (hk : ∀ p ∈ r.vote_counts, cleanName p.1) :
    containsKey (jsonOfVoteResults r) "location" = false ∧
    containsKey (jsonOfVoteResults r) "role" = false ∧
    containsKey (jsonOfVoteResults r) "possible_locations" = false := by
  have h1 := voteCounts_clean r.vote_counts "location"
    (fun p hp => (hk p hp).1)
  have h2 := voteCounts_clean r.vote_counts "role"
    (fun p hp => (hk p hp).2.1)
  have h3 := voteCounts_clean r.vote_counts "possible_locations"
    (fun p hp => (hk p hp).2.2)
  refine ⟨?_, ?_, ?_⟩ <;>
    simp [jsonOfVoteResults, containsKey, containsKeyObj,
      containsKey_jsonOfOptStr, h1, h2, h3]

theorem votesArr_clean (votes : StrMap Vote) (k : String)
    (h1 : ("voter" == k) = false) (h2 : ("target" == k) = false)
    (h3 : ("confidence" == k) = false) (h4 : ("abstained" == k) = false) :
    containsKeyArr (votes.map (fun p =>
      Json.jobj [("voter", .jstr p.1), ("target", jsonOfOptStr p.2.target),
             ("confidence", .jnum p.2.confidence),
             ("abstained", .jbool p.2.abstained)])) k = false :=
  containsKeyArr_map _ _ _ (fun p => by
    simp [containsKey, containsKeyObj, containsKey_jsonOfOptStr, h1, h2, h3, h4])

theorem containsKey_jnull (k : String) : containsKey .null k = false := rfl

theorem containsKey_jbool (b : Bool) (k : String) :
    containsKey (.jbool b) k = false := rfl

theorem containsKey_jnum (n : Int) (k : String) :
    containsKey (.jnum n) k = false := rfl

theorem containsKey_jstr (v k : String) : containsKey (.jstr v) k = false := rfl

theorem containsKey_jarr (l : List Json) (k : String) :
    containsKey (.jarr l) k = containsKeyArr l k := rfl

theorem containsKey_jobj (l : List (String × Json)) (k : String) :
    containsKey (.jobj l) k = containsKeyObj l k := rfl

theorem containsKeyObj_nil (k : String) : containsKeyObj [] k = false := rfl

theorem containsKeyObj_cons (f : String × Json) (rest : List (String × Json))
    (k : String) : containsKeyObj (f :: rest) k =
      ((f.1 == k) || containsKey f.2 k || containsKeyObj rest k) := rfl

theorem reveal_noploc (s : GameState)
    (hvotes : ∀ p ∈ s.votes, ∀ t, p.2.target = some t → cleanName t)
    (hscores : ∀ p ∈ s.round_scores, cleanName p.1)
    (hvr : ∀ r, s.vote_results = some r → ∀ p ∈ r.vote_counts, cleanName p.1) :
    containsKeyObj (revealFields s) "possible_locations" = false := by
  have hsc := (jsonOfScores_clean s.round_scores hscores).2.2
  have hva := votesArr_clean s.votes "possible_locations"
    (by decide) (by decide) (by decide) (by decide)
  cases hvr0 : s.vote_results with
  | none =>
    have hcnt : ∀ p ∈ (calculate_vote_results s).2.vote_counts, cleanName p.1 := by
      intro p hp
      rcases countTargetsAux_mem s.votes [] p hp with h2 | ⟨q, hq, hq2⟩
      · simp at h2
      · exact hvotes q hq _ hq2
    have hres := (jsonOfVoteResults_clean (calculate_vote_results s).2 hcnt).2.2
    cases hloc : s.current_location <;> cases hsg : s.spy_guess <;>
      simp [revealFields, hvr0, hloc, hsg, containsKeyObj_cons,
        containsKeyObj_nil, containsKey_jobj, containsKey_jarr,
        containsKey_jstr, containsKey_jnum, containsKey_jbool,
        containsKey_jnull, containsKey_jsonOfOptStr, hva, hsc, hres]
  | some r =>
    have hres := (jsonOfVoteResults_clean r (hvr r hvr0)).2.2
    cases hloc : s.current_location <;> cases hsg : s.spy_guess <;>
      simp [revealFields, hvr0, hloc, hsg, containsKeyObj_cons,
        containsKeyObj_nil, containsKey_jobj, containsKey_jarr,
        containsKey_jstr, containsKey_jnum, containsKey_jbool,
        containsKey_jnull, containsKey_jsonOfOptStr, hva, hsc, hres]

theorem standingsArr_clean (l : List (String × PlayerSession))
    (d : StrMap ScoreEntry) (fp : Option String) (k : String)
    (h1 : ("name" == k) = false) (h2 : ("score" == k) = false)
    (h3 : ("round_change" == k) = false) (h4 : ("is_self" == k) = false) :
    containsKeyArr (l.map (fun p =>
      Json.jobj [("name", Json.jstr p.2.name), ("score", Json.jnum p.2.score),
             ("round_change", Json.jnum (match dictLookup d p.2.name with
                | some e => e.points
                | none => 0)),
             ("is_self", Json.jbool (some p.2.name == fp))])) k = false :=
  containsKeyArr_map _ _ _ (fun p => by
    simp [containsKey, containsKeyObj, h1, h2, h3, h4])

theorem scoring_clean (now : Int) (s : GameState) (fp : Option String)
    (hplayers : ∀ p ∈ s.players, cleanName p.2.name)
    (hscores : ∀ p ∈ s.round_scores, cleanName p.1) :
    cleanFields (scoringFields now s fp) := by
  have hsc := jsonOfScores_clean s.round_scores hscores
  have hn1 := containsKeyObj_map_named s.players (fun p => p.2.name)
    (fun p => Json.jnum p.2.score) "location"
    (fun p hp => (hplayers p hp).1) (fun x hx => by simp [containsKey])
  have hn2 := containsKeyObj_map_named s.players (fun p => p.2.name)
    (fun p => Json.jnum p.2.score) "role"
    (fun p hp => (hplayers p hp).2.1) (fun x hx => by simp [containsKey])
  have hn3 := containsKeyObj_map_named s.players (fun p => p.2.name)
    (fun p => Json.jnum p.2.score) "possible_locations"
    (fun p hp => (hplayers p hp).2.2) (fun x hx => by simp [containsKey])
  refine ⟨?_, ?_, ?_⟩
  · have hst := standingsArr_clean (sortPlayersByScoreDesc s.players)
      s.round_scores fp "location" (by decide) (by decide) (by decide) (by decide)
    simp only [scoringFields]
    split <;>
      simp [containsKeyObj_append, containsKeyObj_cons, containsKeyObj_nil,
        containsKey_jobj, containsKey_jarr, containsKey_jstr, containsKey_jnum,
        containsKey_jbool, containsKey_jnull, containsKey_jsonOfOptStr,
        hsc.1, hn1, hst]
  · have hst := standingsArr_clean (sortPlayersByScoreDesc s.players)
      s.round_scores fp "role" (by decide) (by decide) (by decide) (by decide)
    simp only [scoringFields]
    split <;>
      simp [containsKeyObj_append, containsKeyObj_cons, containsKeyObj_nil,
        containsKey_jobj, containsKey_jarr, containsKey_jstr, containsKey_jnum,
        containsKey_jbool, containsKey_jnull, containsKey_jsonOfOptStr,
        hsc.2.1, hn2, hst]
  · have hst := standingsArr_clean (sortPlayersByScoreDesc s.players)
      s.round_scores fp "possible_locations" (by decide) (by decide)
      (by decide) (by decide)
    simp only [scoringFields]
    split <;>
      simp [containsKeyObj_append, containsKeyObj_cons, containsKeyObj_nil,
        containsKey_jobj, containsKey_jarr, containsKey_jstr, containsKey_jnum,
        containsKey_jbool, containsKey_jnull, containsKey_jsonOfOptStr,
        hsc.2.2, hn3, hst]

theorem endStandingsArr_clean (l : List (String × PlayerSession))
    (fp : Option String) (k : String)
    (h1 : ("name" == k) = false) (h2 : ("score" == k) = false)
    (h4 : ("is_self" == k) = false) :
    containsKeyArr (l.map (fun p =>
      Json.jobj [("name", Json.jstr p.2.name), ("score", Json.jnum p.2.score),
             ("is_self", Json.jbool (some p.2.name == fp))])) k = false :=
  containsKeyArr_map _ _ _ (fun p => by
    simp [containsKey, containsKeyObj, h1, h2, h4])

theorem determine_winner_clean (s : GameState) (k : String)
    (h1 : ("name" == k) = false) (h2 : ("score" == k) = false)
    (h3 : ("is_tie" == k) = false) (h4 : ("tied_players" == k) = false) :
    containsKey (determine_winner s) k = false := by
  unfold determine_winner
  split
  · simp [containsKey_jobj, containsKeyObj_cons, containsKeyObj_nil,
      containsKey_jnull, containsKey_jnum, containsKey_jbool, h1, h2, h3]
  next top rest heq =>
    by_cases hlen :
        (List.filter (fun p => p.2.score == top.2.score) (top :: rest)).length = 1
    · rw [if_pos hlen]
      simp [containsKey_jobj, containsKeyObj_cons, containsKeyObj_nil,
        containsKey_jstr, containsKey_jnum, containsKey_jbool,
        containsKey_jarr, containsKeyArr, h1, h2, h3, h4]
    · rw [if_neg hlen]
      simp [containsKey_jobj, containsKeyObj_cons, containsKeyObj_nil,
        containsKey_jnull, containsKey_jnum, containsKey_jbool,
        containsKey_jarr, containsKeyArr, h1, h2, h3, h4]
      exact ⟨rfl, containsKeyArr_map _ _ _ (fun x => rfl)⟩

theorem game_stats_clean (s : GameState) (k : String)
    (h1 : ("total_rounds" == k) = false)
    (h2 : ("spies_caught" == k) = false) :
    containsKeyObj (game_stats s) k = false := by
  unfold game_stats
  split <;>
    simp [containsKeyObj_append, containsKeyObj, containsKey, h1, h2]

theorem end_clean (s : GameState) (fp : Option String) :
    cleanFields (endFields s fp) := by
  refine ⟨?_, ?_, ?_⟩
  · simp [endFields, containsKeyObj_cons, containsKeyObj_nil, containsKey_jobj,
      containsKey_jarr, containsKey_jstr, containsKey_jnum, containsKey_jbool,
      containsKey_jnull,
      determine_winner_clean s "location"
        (by decide) (by decide) (by decide) (by decide),
      game_stats_clean s "location" (by decide) (by decide),
      endStandingsArr_clean (sortPlayersByScoreDesc s.players) fp "location"
        (by decide) (by decide) (by decide)]
  · simp [endFields, containsKeyObj_cons, containsKeyObj_nil, containsKey_jobj,
      containsKey_jarr, containsKey_jstr, containsKey_jnum, containsKey_jbool,
      containsKey_jnull,
      determine_winner_clean s "role"
        (by decide) (by decide) (by decide) (by decide),
      game_stats_clean s "role" (by decide) (by decide),
      endStandingsArr_clean (sortPlayersByScoreDesc s.players) fp "role"
        (by decide) (by decide) (by decide)]
  · simp [endFields, containsKeyObj_cons, containsKeyObj_nil, containsKey_jobj,
      containsKey_jarr, containsKey_jstr, containsKey_jnum, containsKey_jbool,
      containsKey_jnull,
      determine_winner_clean s "possible_locations"
        (by decide) (by decide) (by decide) (by decide),
      game_stats_clean s "possible_locations" (by decide) (by decide),
      endStandingsArr_clean (sortPlayersByScoreDesc s.players) fp
        "possible_locations" (by decide) (by decide) (by decide)]

/-- C1 (corrected): the per-viewer projection of `get_state`.  For a spy
viewer the snapshot carries no `location` and no `role` key in every phase
other than `REVEAL`; for a non-spy viewer no phase ever emits a
`possible_locations` key.  The hypotheses keep the name-keyed objects of
the snapshot (player names, score keys, vote targets, stored vote counts)
from colliding with the three sensitive key strings.  The original claim —
which asserted the spy guarantee for every phase — fails at `REVEAL`, where
`revealFields` hands the `location` object to every viewer, spy included. -/
theorem C1_projection (now : Int) (env : ContentEnv) (s : GameState)
    (hplayers : ∀ p ∈ s.players, cleanName p.2.name)
    (hscores : ∀ p ∈ s.round_scores, cleanName p.1)
    (hvotes : ∀ p ∈ s.votes, ∀ t, p.2.target = some t → cleanName t)
    (hvr : ∀ r, s.vote_results = some r →
      ∀ p ∈ r.vote_counts, cleanName p.1) :
    (∀ w j, s.spy_name = some w → ¬s.phase = GamePhase.REVEAL →
      get_state now env s (some w) = .ok j →
      containsKey j "location" = false ∧ containsKey j "role" = false) ∧
    (∀ v j, (∀ w, v = some w → ¬s.spy_name = some w) →
      get_state now env s v = .ok j →
      containsKey j "possible_locations" = false) := by
  constructor
  · intro w j hspy hnr h
    have hb := base_clean now s
    cases hph : s.phase with
    | LOBBY =>
      simp only [get_state, hph, Except.ok.injEq] at h
      subst h
      have hl := lobby_clean now s
      exact ⟨containsKey_jobj_append2 _ _ _ hb.1 hl.1,
             containsKey_jobj_append2 _ _ _ hb.2.1 hl.2.1⟩
    | ROLES =>
      simp only [get_state, hph] at h
      split at h
      next e heq => exact absurd h (by simp)
      next extra heq =>
        simp only [Except.ok.injEq] at h
        subst h
        have hr := roleDataField_spy_clean env s w extra hspy heq
        exact ⟨containsKey_jobj_append2 _ _ _ hb.1 hr.1,
               containsKey_jobj_append2 _ _ _ hb.2.1 hr.2⟩
    | QUESTIONING =>
      simp only [get_state, hph] at h
      split at h
      next e heq => exact absurd h (by simp)
      next extra heq =>
        simp only [Except.ok.injEq] at h
        subst h
        have hr := roleDataField_spy_clean env s w extra hspy heq
        have ht := turnField_clean s
        exact ⟨containsKey_jobj_append3 _ _ _ _ hb.1 hr.1 ht.1,
               containsKey_jobj_append3 _ _ _ _ hb.2.1 hr.2 ht.2.1⟩
    | VOTE =>
      simp only [get_state, hph] at h
      split at h
      next e heq => exact absurd h (by simp)
      next rd heq =>
        simp only [Except.ok.injEq] at h
        subst h
        have hr := voteRoleData_spy_clean env s w rd hspy heq
        have hv := votePublic_clean s (some w)
        exact ⟨containsKey_jobj_append3 _ _ _ _ hb.1 hr.1 hv.1,
               containsKey_jobj_append3 _ _ _ _ hb.2.1 hr.2 hv.2.1⟩
    | REVEAL => exact absurd hph hnr
    | SCORING =>
      simp only [get_state, hph, Except.ok.injEq] at h
      subst h
      have hs := scoring_clean now s (some w) hplayers hscores
      exact ⟨containsKey_jobj_append2 _ _ _ hb.1 hs.1,
             containsKey_jobj_append2 _ _ _ hb.2.1 hs.2.1⟩
    | END =>
      simp only [get_state, hph, Except.ok.injEq] at h
      subst h
      have he := end_clean s (some w)
      exact ⟨containsKey_jobj_append2 _ _ _ hb.1 he.1,
             containsKey_jobj_append2 _ _ _ hb.2.1 he.2.1⟩
    | PAUSED =>
      simp only [get_state, hph, Except.ok.injEq] at h
      subst h
      exact ⟨hb.1, hb.2.1⟩
  · intro v j hns h
    have hb := base_clean now s
    cases hph : s.phase with
    | LOBBY =>
      simp only [get_state, hph, Except.ok.injEq] at h
      subst h
      exact containsKey_jobj_append2 _ _ _ hb.2.2 (lobby_clean now s).2.2
    | ROLES =>
      simp only [get_state, hph] at h
      split at h
      next e heq => exact absurd h (by simp)
      next extra heq =>
        simp only [Except.ok.injEq] at h
        subst h
        exact containsKey_jobj_append2 _ _ _ hb.2.2
          (roleDataField_noploc env s v extra hns heq)
    | QUESTIONING =>
      simp only [get_state, hph] at h
      split at h
      next e heq => exact absurd h (by simp)
      next extra heq =>
        simp only [Except.ok.injEq] at h
        subst h
        exact containsKey_jobj_append3 _ _ _ _ hb.2.2
          (roleDataField_noploc env s v extra hns heq) (turnField_clean s).2.2
    | VOTE =>
      simp only [get_state, hph] at h
      split at h
      next e heq => exact absurd h (by simp)
      next rd heq =>
        simp only [Except.ok.injEq] at h
        subst h
        exact containsKey_jobj_append3 _ _ _ _ hb.2.2
          (voteRoleData_noploc env s v rd hns heq) (votePublic_clean s v).2.2
    | REVEAL =>
      simp only [get_state, hph, Except.ok.injEq] at h
      subst h
      exact containsKey_jobj_append2 _ _ _ hb.2.2
        (reveal_noploc s hvotes hscores hvr)
    | SCORING =>
      simp only [get_state, hph, Except.ok.injEq] at h
      subst h
      exact containsKey_jobj_append2 _ _ _ hb.2.2
        (scoring_clean now s v hplayers hscores).2.2
    | END =>
      simp only [get_state, hph, Except.ok.injEq] at h
      subst h
      exact containsKey_jobj_append2 _ _ _ hb.2.2 (end_clean s v).2.2
    | PAUSED =>
      simp only [get_state, hph, Except.ok.injEq] at h
      subst h
      exact hb.2.2

/-- Whether a snapshot produced without error contains the key. -/
def snapshotKey (r : Except PyFailure Json) (k : String) : Bool :=
  match r with
  | .ok j => containsKey j k
  | .error _ => false

/-- A `REVEAL`-phase session whose spy is Alice and whose secret location
is Paris. -/
def revealLeakState : GameState :=
  { phase := .REVEAL
    spy_name := some "Alice"
    current_location := some { id := "paris", name := "Paris", roles := [] } }

/-- C1 counterexample: in the `REVEAL` phase the snapshot handed to the spy
viewer herself contains a `location` key (with the actual location), so the
original every-phase spy guarantee is false. -/
theorem C1_counterexample :
    revealLeakState.spy_name = some "Alice" ∧
    revealLeakState.phase = GamePhase.REVEAL ∧
    snapshotKey (get_state 100 ⟨[]⟩ revealLeakState (some "Alice"))
      "location" = true := by
  refine ⟨rfl, rfl, ?_⟩
  decide

/-- A lobby whose spy is Alice: a phase where the corrected spy guarantee
applies. -/
def cleanExampleState : GameState :=
  { phase := .LOBBY
    spy_name := some "Alice" }

/-- Witness for C1 at concrete inputs: outside `REVEAL` the spy viewer
gets neither `location` nor `role`, and a non-spy viewer never gets
`possible_locations`. -/
theorem C1_witness :
    snapshotKey (get_state 100 ⟨[]⟩ cleanExampleState (some "Alice"))
      "location" = false ∧
    snapshotKey (get_state 100 ⟨[]⟩ cleanExampleState (some "Alice"))
      "role" = false ∧
    snapshotKey (get_state 100 ⟨[]⟩ cleanExampleState (some "Bob"))
      "possible_locations" = false := by
  have h := C1_projection 100 ⟨[]⟩ cleanExampleState
    (by intro p hp; simp [cleanExampleState] at hp)
    (by intro p hp; simp [cleanExampleState] at hp)
    (by intro p hp; simp [cleanExampleState] at hp)
    (by intro r hr; simp [cleanExampleState] at hr)
  obtain ⟨j1, hj1⟩ :
      ∃ j, get_state 100 ⟨[]⟩ cleanExampleState (some "Alice") = .ok j :=
    ⟨_, rfl⟩
  obtain ⟨j2, hj2⟩ :
      ∃ j, get_state 100 ⟨[]⟩ cleanExampleState (some "Bob") = .ok j :=
    ⟨_, rfl⟩
  have h1 := h.1 "Alice" j1 rfl (by decide) hj1
  have h2 := h.2 (some "Bob") j2 (by intro u hu; cases hu; decide) hj2
  rw [hj1, hj2]
  exact ⟨h1.1, h1.2, h2⟩

end Spyster
